import Mathlib

/-!
# CastleFront simulation engine — verification of spec claims

Shallow embedding of `src/game/GameEngine.ts` (the second, active `GameEngine`
class, lines 1279-2813) together with the constant tables from the project's
`constants.ts`.  JavaScript `number` fields are modelled as `ℚ` (all the
arithmetic the claims touch is exact decimal/rational arithmetic), grid
coordinates as `ℤ`, and nullable references as `Option`.  The mutable tile
grid is a function `ℤ → ℤ → Tile`; tile objects are identified with their
grid position (tiles are created once and mutated in place, so JavaScript
reference equality on tiles coincides with position equality), hence
`Player.ownedTiles` is a list of positions.  Random-generated cosmetic
fields of the source (`id` strings, wave `speed`/`color`) carry no game
logic that any claim touches and are omitted from the corresponding
structures.
-/

set_option autoImplicit false

namespace CastleFront

/-- Terrain of a tile: `type` field of the source `Tile`. -/
inductive Terrain where
  | LAND
  | WATER
deriving DecidableEq, Repr

/-- `BuildingType` enum from `types.ts`. -/
inductive BuildingType where
  | KINGDOM
  | CASTLE
  | MARKET
  | WOODCUTTER
  | MINE
  | FARM
  | BARRACKS
  | PIER
  | TOWN
deriving DecidableEq, Repr

/-- `UnitType` enum from `types.ts`. -/
inductive UnitType where
  | SOLDIER
  | SWORDSMAN
  | ARCHER
  | HORSE
  | TREBUCHET
  | BOAT
deriving DecidableEq, Repr

/-- `AIType`: the two bot archetypes. -/
inductive AIType where
  | KINGDOM
  | CAMP
deriving DecidableEq, Repr

/-- A resource balance record (`Record<ResourceType, number>`). -/
structure Resources where
  gold : ℚ
  wood : ℚ
  stone : ℚ
  food : ℚ
deriving DecidableEq, Repr

/-- `Building` from `types.ts`; the random `id` string is omitted. -/
structure Building where
  type : BuildingType
  ownerId : String
  x : ℤ
  y : ℤ
  hp : ℚ
  maxHp : ℚ
  isUnderConstruction : Bool
  constructionProgress : ℚ
deriving DecidableEq, Repr

/-- `Tile` from `types.ts`.  The `x`/`y` fields are the grid position the
tile is stored at, so they are kept outside the structure (the grid is a
function of the position). -/
structure Tile where
  type : Terrain
  elevation : ℤ
  ownerId : Option String
  building : Option Building
  defense : ℚ
deriving DecidableEq, Repr

/-- `Unit` from `types.ts`; the random `id` string is omitted. -/
structure Unit where
  type : UnitType
  ownerId : String
  x : ℚ
  y : ℚ
  targetX : Option ℚ
  targetY : Option ℚ
  hasCommand : Bool
  idleTicks : ℤ
  hp : ℚ
  maxHp : ℚ
  attack : ℚ
  speed : ℚ
  range : ℚ
deriving DecidableEq, Repr

/-- `Player` from the engine.  `militaryPopulation` is stored as `ℤ`: every
source write to it is integral (`distributeExpansion` adds
`Math.floor(...)`, dispatch subtracts an integer `actuallySpent`, see
`processMilitaryDispatch` below).  `ownedTiles` is the list of positions of
the tile objects held in the source array (duplicates preserved). -/
structure Player where
  id : String
  name : String
  color : String
  isAI : Bool
  aiType : AIType
  resources : Resources
  income : Resources
  population : ℚ
  maxPopulation : ℚ
  militaryPopulation : ℤ
  attackTarget : Option String
  units : List Unit
  center : ℚ × ℚ
  landArea : ℕ
  ownedTiles : List (ℤ × ℤ)
deriving DecidableEq, Repr

/-- `AttackWave`; the random `id`, the random `speed` and the cosmetic
`color` are omitted (no claim depends on them).  Targets are the integer
tile coordinates the engine always creates waves with. -/
structure AttackWave where
  ownerId : String
  x : ℚ
  y : ℚ
  targetX : ℤ
  targetY : ℤ
  power : ℚ
deriving DecidableEq, Repr

/-- The engine state (`GameEngine` fields relevant to the claims). -/
structure GameState where
  mapWidth : ℤ
  mapHeight : ℤ
  tiles : ℤ → ℤ → Tile
  players : List Player
  attacks : List AttackWave
  tickCount : ℤ
  winnerId : Option String
  totalLandTiles : ℕ
  isGameActive : Bool
  wipeOutQueue : List ((ℤ × ℤ) × String)

/-- `isValid(x, y)` — bounds check. -/
def isValid (s : GameState) (x y : ℤ) : Bool :=
  0 ≤ x && x < s.mapWidth && 0 ≤ y && y < s.mapHeight

/-- `this.tiles[y][x]`. -/
def tileAt (s : GameState) (x y : ℤ) : Tile :=
  s.tiles x y

/-- Write the tile object at one grid cell (in-place mutation of
`this.tiles[y][x]`). -/
def setTile (s : GameState) (x y : ℤ) (t : Tile) : GameState :=
  { s with tiles := fun a b => if a = x ∧ b = y then t else s.tiles a b }

/-- `this.players.find(p => p.id === pid)`. -/
def findPlayer (s : GameState) (pid : String) : Option Player :=
  s.players.find? (fun p => p.id == pid)

/-- Mutating the player object returned by `players.find(...)`: the first
list entry whose id matches is replaced by `f` of it, the rest untouched. -/
def updateFirstPlayer (ps : List Player) (pid : String) (f : Player → Player) :
    List Player :=
  match ps with
  | [] => []
  | p :: rest =>
      if p.id == pid then f p :: rest
      else p :: updateFirstPlayer rest pid f

/-- State-level variant of `updateFirstPlayer`. -/
def updatePlayer (s : GameState) (pid : String) (f : Player → Player) : GameState :=
  { s with players := updateFirstPlayer s.players pid f }

/-- The 4-neighborhood offsets used throughout the engine
(`[{0,-1},{0,1},{-1,0},{1,0}]`). -/
def neighborOffsets : List (ℤ × ℤ) := [(0, -1), (0, 1), (-1, 0), (1, 0)]

/-- Row-major list of all grid positions, as `(x, y)` pairs, in the order of
the engine's `for (y) for (x)` double loops. -/
def allPositions (s : GameState) : List (ℤ × ℤ) :=
  (List.range s.mapHeight.toNat).flatMap (fun y =>
    (List.range s.mapWidth.toNat).map (fun x => ((x : ℤ), (y : ℤ))))

/-! ## `queueWipeOut` (lines 1977-2002)

Collects every tile of the defender (row-major scan), sorts by squared
distance from the attacker's `center` (ascending, stable — JavaScript
`Array.prototype.sort` is stable, as is `List.mergeSort`), and appends to
the wipe-out queue. -/

/-- Squared distance of a grid position from a rational centre point. -/
def distSqFromCenter (c : ℚ × ℚ) (p : ℤ × ℤ) : ℚ :=
  ((p.1 : ℚ) - c.1) ^ 2 + ((p.2 : ℚ) - c.2) ^ 2

def queueWipeOut (s : GameState) (attacker defender : Player) : GameState :=
  let defenderTiles := (allPositions s).filter
    (fun p => (tileAt s p.1 p.2).ownerId == some defender.id)
  if defenderTiles.isEmpty then s
  else
    let sorted := defenderTiles.mergeSort
      (fun a b => distSqFromCenter attacker.center a ≤ distSqFromCenter attacker.center b)
    { s with wipeOutQueue := s.wipeOutQueue ++ sorted.map (fun p => (p, attacker.id)) }

/-! ## `applyAttack` (lines 1865-1972)

Breadth-first overflow propagation.  One queue item is
`{x, y, power, ownerId}`.  `applyAttackStep` is the body of the while loop
for an in-bounds item: it returns the mutated state together with the list
of overflow items pushed onto the queue.  `applyAttackLoop` is the while
loop itself; it additionally returns the final `tilesProcessed` counter. -/

structure QueueItem where
  x : ℤ
  y : ℤ
  power : ℚ
  ownerId : String
deriving DecidableEq, Repr

/-- `MAX_CHAIN = 20` — hard limit on processed tiles per wave landing. -/
def MAX_CHAIN : ℕ := 20

/-- The overflow neighbor scan (lines 1932-1947): in-bounds 4-neighbors of
the captured tile whose owner differs from the attacking owner.  Note that
the source applies no terrain filter here. -/
def overflowNeighbors (s : GameState) (x y : ℤ) (ownerId : String) : List (ℤ × ℤ) :=
  (neighborOffsets.map (fun n => (x + n.1, y + n.2))).filter
    (fun p => isValid s p.1 p.2 && (tileAt s p.1 p.2).ownerId != some ownerId)

/-- The population of the player found for an owner id, or 0 when the
lookup fails (`owner ? owner.population : 0`). -/
def ownerPop (s : GameState) (pid : String) : ℚ :=
  match findPlayer s pid with
  | some owner => owner.population
  | none => 0

/-- The population-derived defense cap `1 + Math.floor(pop / 2000)`. -/
def maxDefenseFor (s : GameState) (pid : String) : ℚ :=
  1 + ((⌊ownerPop s pid / 2000⌋ : ℤ) : ℚ)

/-- Overflow redistribution after a conquest (lines 1927-1960): the power
in excess of the conquest cost (`initialDefense * 10`), when above the
threshold 10, is divided evenly over the valid neighbors and queued. -/
def captureOverflow (s₃ : GameState) (x y : ℤ) (power initialDefense : ℚ)
    (oid : String) : GameState × List QueueItem :=
  let costOfConquest := initialDefense * 10
  let remainingPower := power - costOfConquest
  if 10 < remainingPower then
    let validNeighbors := overflowNeighbors s₃ x y oid
    if validNeighbors ≠ [] then
      let powerPerTarget := remainingPower / validNeighbors.length
      (s₃, validNeighbors.map (fun p =>
        { x := p.1, y := p.2, power := powerPerTarget, ownerId := oid }))
    else (s₃, [])
  else (s₃, [])

/-- Loop body of `applyAttack` for an item that passed the `isValid` check. -/
def applyAttackStep (s : GameState) (item : QueueItem) :
    GameState × List QueueItem :=
  let tile := tileAt s item.x item.y
  let damage := max (1/10 : ℚ) (item.power / 10)
  match tile.building with
  | some b =>
      -- Building hit: absorbs the impact, halts propagation.
      let hp' := b.hp - damage
      if hp' ≤ 0 then
        let s₁ :=
          if b.type = BuildingType.KINGDOM then
            match findPlayer s b.ownerId, findPlayer s item.ownerId with
            | some victim, some killer => queueWipeOut s killer victim
            | _, _ => s
          else s
        (setTile s₁ item.x item.y { tileAt s₁ item.x item.y with building := none }, [])
      else
        (setTile s item.x item.y { tile with building := some { b with hp := hp' } }, [])
  | none =>
      if tile.ownerId ≠ some item.ownerId then
        let initialDefense := tile.defense
        let defense' := tile.defense - damage
        if defense' ≤ 0 then
          -- Conquest: transfer ownership, update both caches, reset defense.
          let s₁ :=
            match tile.ownerId with
            | some oldId =>
                updatePlayer s oldId (fun oldP =>
                  { oldP with ownedTiles :=
                      oldP.ownedTiles.filter (fun t => t ≠ (item.x, item.y)) })
            | none => s
          let s₂ := updatePlayer s₁ item.ownerId (fun newOwner =>
            { newOwner with ownedTiles := newOwner.ownedTiles ++ [(item.x, item.y)] })
          let s₃ := setTile s₂ item.x item.y
            { tile with ownerId := some item.ownerId,
                        defense := 1 + ((⌊ownerPop s₂ item.ownerId / 2000⌋ : ℤ) : ℚ) }
          captureOverflow s₃ item.x item.y item.power initialDefense item.ownerId
        else
          (setTile s item.x item.y { tile with defense := defense' }, [])
      else
        -- Heal own tile toward the population-derived cap.
        let maxDef : ℚ := maxDefenseFor s item.ownerId
        if tile.defense < maxDef then
          let healed := tile.defense + damage
          (setTile s item.x item.y
            { tile with defense := if maxDef < healed then maxDef else healed }, [])
        else (s, [])

/-- The `while (queue.length > 0 && tilesProcessed < MAX_CHAIN)` loop.
Returns the final state and the final `tilesProcessed` count. -/
def applyAttackLoop (s : GameState) (queue : List QueueItem) (processed : ℕ) :
    GameState × ℕ :=
  match queue with
  | [] => (s, processed)
  | item :: rest =>
      if h : processed < MAX_CHAIN then
        if isValid s item.x item.y then
          let r := applyAttackStep s item
          applyAttackLoop r.1 (rest ++ r.2) (processed + 1)
        else
          applyAttackLoop s rest processed
      else (s, processed)
termination_by (MAX_CHAIN - processed, queue.length)
decreasing_by
  · exact Prod.Lex.left _ _ (by omega)
  · exact Prod.Lex.right _ (by simp)

/-- `applyAttack(initialAtk)`: seed the queue with the wave's landing tile.
The second component is the number of tiles processed (the source's
`tilesProcessed` local). -/
def applyAttack (s : GameState) (atk : AttackWave) : GameState × ℕ :=
  applyAttackLoop s
    [{ x := atk.targetX, y := atk.targetY, power := atk.power, ownerId := atk.ownerId }] 0

/-! ## `claimRadius` (lines 1694-1717)

Scans the square `[cy-r, cy+r] × [cx-r, cx+r]` (outer `y`, inner `x`); an
in-bounds unclaimed land tile within Euclidean distance `r` of the centre
is claimed.  The source compares `Math.sqrt((x-cx)²+(y-cy)²) <= radius`;
with integer coordinates and radius this is exactly the integer comparison
`(x-cx)² + (y-cy)² ≤ r²` used here (both sides of the source comparison are
non-negative, and squaring is monotone). -/

/-- The scan positions of `claimRadius`'s double loop, as `(x, y)` pairs. -/
def claimScanList (cx cy : ℤ) (r : ℕ) : List (ℤ × ℤ) :=
  (List.range (2 * r + 1)).flatMap (fun (dy : ℕ) =>
    (List.range (2 * r + 1)).map (fun (dx : ℕ) =>
      ((cx - r + dx : ℤ), (cy - r + dy : ℤ))))

/-- Body of `claimRadius`'s loop at one scan position; the accumulator is
the state together with the running `count`. -/
def claimStep (pid : String) (cx cy : ℤ) (r : ℕ) (acc : GameState × ℕ)
    (p : ℤ × ℤ) : GameState × ℕ :=
  let s := acc.1
  if isValid s p.1 p.2 then
    if (p.1 - cx) ^ 2 + (p.2 - cy) ^ 2 ≤ (r : ℤ) ^ 2 then
      let tile := tileAt s p.1 p.2
      if tile.type = Terrain.LAND ∧ tile.ownerId = none then
        let s₁ := setTile s p.1 p.2 { tile with ownerId := some pid }
        let s₂ := match findPlayer s₁ pid with
          | some player =>
              let s' := setTile s₁ p.1 p.2
                { tileAt s₁ p.1 p.2 with
                    defense := 1 + ((⌊player.population / 2000⌋ : ℤ) : ℚ) }
              updatePlayer s' pid (fun pl =>
                { pl with ownedTiles := pl.ownedTiles ++ [p] })
          | none => s₁
        (s₂, acc.2 + 1)
      else acc
    else acc
  else acc

/-- `claimRadius(playerId, cx, cy, radius)`; returns the new state and the
claimed-tile count. -/
def claimRadius (s : GameState) (pid : String) (cx cy : ℤ) (r : ℕ) :
    GameState × ℕ :=
  (claimScanList cx cy r).foldl (claimStep pid cx cy r) (s, 0)

/-! ## `processMilitaryDispatch` (lines 1754-1831) -/

/-- `this.tiles.flat().find(t => (t.building?.type === KINGDOM ||
t.building?.type === CASTLE) && t.ownerId === player.id)` — `flat()` is the
row-major order of `allPositions`. -/
def findCastlePos (s : GameState) (pid : String) : Option (ℤ × ℤ) :=
  (allPositions s).find? (fun p =>
    (match (tileAt s p.1 p.2).building with
     | some b => b.type == BuildingType.KINGDOM || b.type == BuildingType.CASTLE
     | none => false) && (tileAt s p.1 p.2).ownerId == some pid)

/-- The valid target neighbors of one owned tile (lines 1772-1789):
unowned land when expanding neutrally, tiles of the `attackTarget` owner
otherwise. -/
def validDispatchTargets (s : GameState) (targetOwner : Option String)
    (pos : ℤ × ℤ) : List (ℤ × ℤ) :=
  (neighborOffsets.map (fun n => (pos.1 + n.1, pos.2 + n.2))).filter (fun q =>
    isValid s q.1 q.2 &&
      match targetOwner with
      | none =>
          (tileAt s q.1 q.2).ownerId == none
            && (tileAt s q.1 q.2).type == Terrain.LAND
      | some t => (tileAt s q.1 q.2).ownerId == some t)

/-- The `candidates` array: owned tiles (in cache order) paired with their
non-empty valid-target lists. -/
def buildCandidates (s : GameState) (player : Player) :
    List ((ℤ × ℤ) × List (ℤ × ℤ)) :=
  player.ownedTiles.filterMap (fun pos =>
    let ts := validDispatchTargets s player.attackTarget pos
    if ts.isEmpty then none else some (pos, ts))

/-- Inner `cand.targets.forEach` loop (lines 1820-1825): one wave of power
`powerPerTarget` per target while budget remains; each creation deducts
exactly the wave's power from the budget. -/
def dispatchTargets (pid : String) (src : ℤ × ℤ) (ppt : ℤ)
    (targets : List (ℤ × ℤ)) (budget : ℤ) (waves : List AttackWave) :
    ℤ × List AttackWave :=
  targets.foldl (fun acc tgt =>
    if 0 < acc.1 then
      (acc.1 - ppt,
       acc.2 ++ [{ ownerId := pid, x := (src.1 : ℚ), y := (src.2 : ℚ),
                   targetX := tgt.1, targetY := tgt.2, power := (ppt : ℚ) }])
    else acc) (budget, waves)

/-- Outer `for (const cand of candidates)` loop (lines 1812-1826), with the
`remainingBudget <= 0` break.  `powerPerSource` is fixed before the loop. -/
def dispatchCandLoop (pid : String) (ppS : ℤ)
    (cands : List ((ℤ × ℤ) × List (ℤ × ℤ))) (budget : ℤ)
    (waves : List AttackWave) : ℤ × List AttackWave :=
  match cands with
  | [] => (budget, waves)
  | c :: rest =>
      if budget ≤ 0 then (budget, waves)
      else
        let powerForThis := min ppS budget
        let ppt := max 1 (powerForThis / (c.2.length : ℤ))
        let r := dispatchTargets pid c.1 ppt c.2 budget waves
        dispatchCandLoop pid ppS rest r.1 r.2

/-- Squared distance of a candidate's source tile from the castle position
(the sort key of lines 1800-1804). -/
def candDistSq (castle : ℚ × ℚ) (c : (ℤ × ℤ) × List (ℤ × ℤ)) : ℚ :=
  ((c.1.1 : ℚ) - castle.1) ^ 2 + ((c.1.2 : ℚ) - castle.2) ^ 2

/-- Budget phase of the per-player dispatch (lines 1806-1829), for the
already-sorted candidate list: compute the flow rate, run the candidate
loop, push the created waves, deduct what was actually spent. -/
def dispatchBudget (s : GameState) (pid : String) (player : Player)
    (sorted : List ((ℤ × ℤ) × List (ℤ × ℤ))) : GameState :=
  let flowRate : ℤ := ⌈(player.militaryPopulation : ℚ) * (5 / 100)⌉ + 5
  let amountToDeploy := min player.militaryPopulation flowRate
  let ppS := max 1 (amountToDeploy / (sorted.length : ℤ))
  let r := dispatchCandLoop pid ppS sorted amountToDeploy []
  let actuallySpent := amountToDeploy - r.1
  let s' := { s with attacks := s.attacks ++ r.2 }
  updatePlayer s' pid (fun p =>
    { p with militaryPopulation := p.militaryPopulation - actuallySpent })

/-- The per-player body of `processMilitaryDispatch`'s `forEach`. -/
def dispatchForPlayer (s : GameState) (pid : String) : GameState :=
  match findPlayer s pid with
  | none => s
  | some player =>
      if player.militaryPopulation < 1 then s
      else
        let castle : ℚ × ℚ := match findCastlePos s pid with
          | some p => ((p.1 : ℚ), (p.2 : ℚ))
          | none => ((s.mapWidth : ℚ) / 2, (s.mapHeight : ℚ) / 2)
        let candidates := buildCandidates s player
        if candidates.isEmpty then s
        else
          dispatchBudget s pid player (candidates.mergeSort
            (fun a b => candDistSq castle a ≤ candDistSq castle b))

/-- `processMilitaryDispatch()`: the `forEach` over the player list (the
list itself is not structurally mutated, so iterating the ids of the entry
players is the source's iteration). -/
def processMilitaryDispatch (s : GameState) : GameState :=
  (s.players.map Player.id).foldl dispatchForPlayer s

/-! ## `checkEncirclement` (lines 2038-2108) and `captureComponent`
(lines 2110-2129)

The boundary set is a JavaScript `Set<string>` holding the sentinels
`'EDGE'`/`'WATER'`/`'NEUTRAL'` and owner-id strings; it is modelled as an
insertion-ordered duplicate-free `List String`.  The flood fill is given
explicit fuel `mapWidth*mapHeight + 1`; each loop iteration pops one queue
entry, and entries enter the queue only when first marked visited, so the
fuel can never run out on the engine's own calls (the `none` result is
unreachable there). -/

/-- `Set.add` on the insertion-ordered boundary list. -/
def addBoundary (b : List String) (x : String) : List String :=
  if x ∈ b then b else b ++ [x]

/-- Neighbor handling of one popped flood-fill tile (lines 2066-2095): the
accumulator is `(queue, visited, boundary)`. -/
def floodNeighbors (s : GameState) (owner : String) (curr : ℤ × ℤ)
    (q : List (ℤ × ℤ)) (v : List (ℤ × ℤ)) (b : List String) :
    List (ℤ × ℤ) × List (ℤ × ℤ) × List String :=
  neighborOffsets.foldl (fun acc n =>
    let nx := curr.1 + n.1
    let ny := curr.2 + n.2
    if ¬ isValid s nx ny then (acc.1, acc.2.1, addBoundary acc.2.2 "EDGE")
    else
      let nb := tileAt s nx ny
      match nb.type with
      | Terrain.WATER => (acc.1, acc.2.1, addBoundary acc.2.2 "WATER")
      | Terrain.LAND =>
          if nb.ownerId = some owner then
            if (nx, ny) ∈ acc.2.1 then acc
            else (acc.1 ++ [(nx, ny)], acc.2.1 ++ [(nx, ny)], acc.2.2)
          else
            match nb.ownerId with
            | none => (acc.1, acc.2.1, addBoundary acc.2.2 "NEUTRAL")
            | some oid => (acc.1, acc.2.1, addBoundary acc.2.2 oid))
    (q, v, b)

/-- The `while (head < queue.length)` flood-fill loop (lines 2061-2096).
Returns `(component, boundary, visited)`. -/
def floodFillLoop (s : GameState) (owner : String) :
    ℕ → List (ℤ × ℤ) → List (ℤ × ℤ) → List (ℤ × ℤ) → List String →
    Option (List (ℤ × ℤ) × List String × List (ℤ × ℤ))
  | _, [], visited, component, boundary => some (component, boundary, visited)
  | 0, _ :: _, _, _, _ => none
  | fuel + 1, curr :: rest, visited, component, boundary =>
      let r := floodNeighbors s owner curr rest visited boundary
      floodFillLoop s owner fuel r.1 r.2.1 (component ++ [curr]) r.2.2

/-- Flood fill from a start tile already known to be owned land, with the
pass-wide `visited` set (the start key is added before the loop,
line 2057). -/
def floodFillAt (s : GameState) (x y : ℤ) (visited : List (ℤ × ℤ))
    (owner : String) : Option (List (ℤ × ℤ) × List String × List (ℤ × ℤ)) :=
  floodFillLoop s owner (s.mapWidth.toNat * s.mapHeight.toNat + 1)
    [(x, y)] (visited ++ [(x, y)]) [] []

/-- Per-tile body of `captureComponent`'s `forEach` (lines 2113-2128). -/
def captureTileStep (newOwnerId : String) (newOwnerFound : Bool)
    (s : GameState) (pos : ℤ × ℤ) : GameState :=
  let t := tileAt s pos.1 pos.2
  let s₁ := match t.ownerId with
    | some old => updatePlayer s old (fun oldP =>
        { oldP with ownedTiles := oldP.ownedTiles.filter (fun ot => ot ≠ pos) })
    | none => s
  let s₂ := setTile s₁ pos.1 pos.2
    { t with ownerId := some newOwnerId,
             defense := 10,
             building := match t.building with
               | some b => some { b with ownerId := newOwnerId,
                                         hp := b.maxHp * (1/2) }
               | none => none }
  if newOwnerFound then
    updatePlayer s₂ newOwnerId (fun p =>
      { p with ownedTiles := p.ownedTiles ++ [pos] })
  else s₂

/-- `captureComponent(tiles, newOwnerId)` — `newOwner` is looked up once
before the loop. -/
def captureComponent (s : GameState) (tiles : List (ℤ × ℤ))
    (newOwnerId : String) : GameState :=
  tiles.foldl (captureTileStep newOwnerId (findPlayer s newOwnerId).isSome) s

/-- Outer double-loop body of `checkEncirclement` at one grid cell; the
accumulator carries the state and the pass-wide visited set. -/
def encircleCell (acc : GameState × List (ℤ × ℤ)) (p : ℤ × ℤ) :
    GameState × List (ℤ × ℤ) :=
  let s := acc.1
  let visited := acc.2
  if p ∈ visited then acc
  else
    let tile := tileAt s p.1 p.2
    match tile.type, tile.ownerId with
    | Terrain.LAND, some owner =>
        match floodFillAt s p.1 p.2 visited owner with
        | none => acc
        | some (comp, bnd, visited') =>
            if "WATER" ∈ bnd ∨ "EDGE" ∈ bnd ∨ "NEUTRAL" ∈ bnd then (s, visited')
            else
              match bnd with
              | [capturer] => (captureComponent s comp capturer, visited')
              | _ => (s, visited')
    | _, _ => (s, visited ++ [p])

/-- `checkEncirclement()`. -/
def checkEncirclement (s : GameState) : GameState :=
  ((allPositions s).foldl encircleCell (s, [])).1

/-! ## `updateEconomy` (lines 2172-2274) -/

/-- Per-player accumulator of the single full-grid sweep. -/
structure EconStats where
  gold : ℚ
  wood : ℚ
  stone : ℚ
  food : ℚ
  popGrowth : ℚ
  maxPop : ℚ
  landCount : ℕ
  sumX : ℚ
  sumY : ℚ
deriving DecidableEq, Repr

/-- `BUILDING_STATS[...].income` from `constants.ts`; absent entries are 0
(the source guards each addition with a truthiness check, and every present
entry is non-zero, so adding a 0 default is the identical arithmetic). -/
def buildingIncome : BuildingType → Resources
  | BuildingType.KINGDOM => { gold := 20, wood := 5, stone := 5, food := 10 }
  | BuildingType.CASTLE => { gold := 5, wood := 0, stone := 0, food := 2 }
  | BuildingType.MARKET => { gold := 10, wood := 0, stone := 0, food := 0 }
  | BuildingType.WOODCUTTER => { gold := 0, wood := 5, stone := 0, food := 0 }
  | BuildingType.MINE => { gold := 0, wood := 0, stone := 3, food := 0 }
  | BuildingType.FARM => { gold := 0, wood := 0, stone := 0, food := 8 }
  | BuildingType.TOWN => { gold := 0, wood := 0, stone := 0, food := 0 }
  | BuildingType.BARRACKS => { gold := 0, wood := 0, stone := 0, food := 0 }
  | BuildingType.PIER => { gold := 0, wood := 0, stone := 0, food := 0 }

/-- Contribution of one grid cell to one player's stats (lines 2186-2218).
The source builds one `playerStats` record keyed by id in a single sweep;
accumulation is independent per owner, so the per-player sweep below is the
same map entry. -/
def econTileStep (s : GameState) (pid : String) (st : EconStats)
    (p : ℤ × ℤ) : EconStats :=
  let tile := tileAt s p.1 p.2
  if tile.ownerId == some pid then
    let st := { st with
      landCount := st.landCount + 1,
      sumX := st.sumX + (p.1 : ℚ),
      sumY := st.sumY + (p.2 : ℚ),
      popGrowth := st.popGrowth + 1,
      maxPop := st.maxPop + 10 }
    match tile.building with
    | some b =>
        if b.ownerId == pid && !b.isUnderConstruction then
          let inc := buildingIncome b.type
          let st := { st with
            gold := st.gold + inc.gold, wood := st.wood + inc.wood,
            stone := st.stone + inc.stone, food := st.food + inc.food }
          if b.type == BuildingType.TOWN then
            { st with popGrowth := st.popGrowth + 10 }
          else if b.type == BuildingType.CASTLE || b.type == BuildingType.KINGDOM then
            { st with popGrowth := st.popGrowth + 100 }
          else st
        else st
    | none => st
  else st

/-- `playerStats[pid]` after the grid sweep (initial gold 1, line 2182). -/
def computeStats (s : GameState) (pid : String) : EconStats :=
  (allPositions s).foldl (econTileStep s pid)
    { gold := 1, wood := 0, stone := 0, food := 0, popGrowth := 0,
      maxPop := 0, landCount := 0, sumX := 0, sumY := 0 }

/-- The apply phase for one player (lines 2221-2262), including the
per-player win-condition check. -/
def econApplyStep (stats : String → EconStats) (total : ℕ) (s : GameState)
    (pid : String) : GameState :=
  let st := stats pid
  let s₁ := updatePlayer s pid (fun p =>
    let p₁ := { p with
      resources := { gold := p.resources.gold + st.gold,
                     wood := p.resources.wood + st.wood,
                     stone := p.resources.stone + st.stone,
                     food := p.resources.food + st.food },
      income := { gold := st.gold, wood := st.wood,
                  stone := st.stone, food := st.food },
      landArea := st.landCount,
      center := if 0 < st.landCount then
          (st.sumX / (st.landCount : ℚ), st.sumY / (st.landCount : ℚ))
        else p.center,
      maxPopulation := max 100 st.maxPop }
    if p₁.population < p₁.maxPopulation then
      let growth := 1/2 + p₁.population * (5/1000)
      let np := p₁.population + growth
      { p₁ with population := if p₁.maxPopulation < np then p₁.maxPopulation else np }
    else if p₁.maxPopulation < p₁.population then
      { p₁ with population := p₁.population - 1 }
    else p₁)
  if 0 < total ∧ (4/5 : ℚ) < (st.landCount : ℚ) / (total : ℚ) then
    { s₁ with winnerId := some pid }
  else s₁

/-- The top-landed AI of the defeat fallback (line 2270): a stable
descending sort by `landCount` followed by `[0]` picks the first player of
the filtered list attaining the maximal land count. -/
def topAIPlayer (stats : String → EconStats) (ais : List Player) :
    Option Player :=
  ais.foldl (fun best p =>
    match best with
    | none => some p
    | some b =>
        if (stats b.id).landCount < (stats p.id).landCount then some p
        else best) none

/-- `updateEconomy()` — stats sweep, apply phase with win condition, then
the no-human-alive fallback (lines 2264-2273). -/
def updateEconomy (s : GameState) : GameState :=
  let stats := fun pid => computeStats s pid
  let s₁ := (s.players.map Player.id).foldl
    (econApplyStep stats s.totalLandTiles) s
  if s₁.isGameActive then
    let humanAlive := s₁.players.any (fun p => !p.isAI && 0 < (stats p.id).landCount)
    if !humanAlive && s₁.players.any (fun p => !p.isAI) then
      { s₁ with winnerId := match topAIPlayer stats (s₁.players.filter (·.isAI)) with
          | some a => some a.id
          | none => some "AI_WINNER" }
    else s₁
  else s₁

/-- `isGameOver` getter. -/
def isGameOver (s : GameState) : Bool :=
  s.winnerId != none

/-! ## `canBuild` (lines 2671-2712) and `placeBuilding` (lines 2714-2757) -/

/-- `BUILDING_COSTS` from `constants.ts`. -/
def BUILDING_COSTS : BuildingType → Resources
  | BuildingType.KINGDOM => { gold := 5000, wood := 2000, stone := 2000, food := 1000 }
  | BuildingType.CASTLE => { gold := 1000, wood := 500, stone := 500, food := 200 }
  | BuildingType.MARKET => { gold := 100, wood := 50, stone := 0, food := 0 }
  | BuildingType.WOODCUTTER => { gold := 50, wood := 0, stone := 0, food := 20 }
  | BuildingType.MINE => { gold := 100, wood := 100, stone := 0, food := 50 }
  | BuildingType.FARM => { gold := 50, wood := 20, stone := 0, food := 0 }
  | BuildingType.TOWN => { gold := 200, wood := 200, stone := 50, food := 100 }
  | BuildingType.BARRACKS => { gold := 300, wood := 200, stone := 200, food := 100 }
  | BuildingType.PIER => { gold := 200, wood := 300, stone := 50, food := 50 }

/-- `BUILDING_STATS[...].maxHp` from `constants.ts`. -/
def buildingMaxHp : BuildingType → ℚ
  | BuildingType.KINGDOM => 15000
  | BuildingType.CASTLE => 5000
  | BuildingType.MARKET => 500
  | BuildingType.WOODCUTTER => 300
  | BuildingType.MINE => 400
  | BuildingType.FARM => 200
  | BuildingType.TOWN => 800
  | BuildingType.BARRACKS => 1000
  | BuildingType.PIER => 600

/-- The `for (const r of Object.keys(costs))` affordability check. -/
def canAfford (p : Player) (c : Resources) : Bool :=
  !(p.resources.gold < c.gold) && !(p.resources.wood < c.wood)
    && !(p.resources.stone < c.stone) && !(p.resources.food < c.food)

/-- `isAdjacentToPlayer(x, y, playerId)` (lines 1719-1733). -/
def isAdjacentToPlayer (s : GameState) (x y : ℤ) (pid : String) : Bool :=
  neighborOffsets.any (fun n =>
    isValid s (x + n.1) (y + n.2)
      && (tileAt s (x + n.1) (y + n.2)).ownerId == some pid)

/-- The elevation constraint of `canBuild` (lines 2692-2701). -/
def elevationOk (type : BuildingType) (elev : ℤ) : Bool :=
  if type == BuildingType.FARM then !(5 < elev)
  else if type == BuildingType.MINE then !(elev ≤ 5)
  else if type == BuildingType.WOODCUTTER then !(10 < elev)
  else !(12 < elev)

/-- `canBuild(playerId, type, x, y)` — a pure predicate of the state (it
performs no mutation by construction). -/
def canBuild (s : GameState) (pid : String) (type : BuildingType)
    (x y : ℤ) : Bool :=
  isValid s x y &&
  (tileAt s x y).building == none &&
  (if type == BuildingType.PIER then
     (tileAt s x y).type == Terrain.WATER && isAdjacentToPlayer s x y pid
   else
     (tileAt s x y).type == Terrain.LAND
       && (tileAt s x y).ownerId == some pid) &&
  elevationOk type (tileAt s x y).elevation &&
  (match findPlayer s pid with
   | some player => canAfford player (BUILDING_COSTS type)
   | none => false)

/-- `placeBuilding(playerId, type, x, y, free)`.  The source performs the
resource deduction first, then writes `this.tiles[y][x]` with no bounds
check: with out-of-bounds coordinates that write throws a `TypeError`
(modelled as `none`; the deduction has already happened when the exception
escapes, but no claim exercises that path). -/
def placeBuilding (s : GameState) (pid : String) (type : BuildingType)
    (x y : ℤ) (free : Bool) : Option GameState :=
  match findPlayer s pid with
  | none => some s
  | some player =>
      let s₁ := if free then s
        else updatePlayer s pid (fun p =>
          let c := BUILDING_COSTS type
          { p with resources := { gold := p.resources.gold - c.gold,
                                  wood := p.resources.wood - c.wood,
                                  stone := p.resources.stone - c.stone,
                                  food := p.resources.food - c.food } })
      if isValid s₁ x y then
        let tile := tileAt s₁ x y
        let s₂ := setTile s₁ x y
          { tile with
              building := some
                { type := type, ownerId := pid, x := x, y := y,
                  hp := buildingMaxHp type, maxHp := buildingMaxHp type,
                  isUnderConstruction := !free,
                  constructionProgress := if free then 100 else 0 },
              defense := 1 + ((⌊player.population / 2000⌋ : ℤ) : ℚ) }
        if tile.ownerId ≠ some pid then
          let s₃ := match tile.ownerId with
            | some old => updatePlayer s₂ old (fun o =>
                { o with ownedTiles := o.ownedTiles.filter (fun t => t ≠ (x, y)) })
            | none => s₂
          let s₄ := updatePlayer s₃ pid (fun p =>
            { p with ownedTiles := p.ownedTiles ++ [(x, y)] })
          some (setTile s₄ x y { tileAt s₄ x y with ownerId := some pid })
        else
          some (updatePlayer s₂ pid (fun p =>
            if (x, y) ∈ p.ownedTiles then p
            else { p with ownedTiles := p.ownedTiles ++ [(x, y)] }))
      else none

/-! ## `handleCombat` (lines 2473-2523) -/

/-- Inclusive integer range `[a, b]` as a list. -/
def intRangeIncl (a b : ℤ) : List ℤ :=
  (List.range (b - a + 1).toNat).map (fun i => a + (i : ℤ))

/-- The building-scan box of `handleCombat` (lines 2481-2482): outer `y`
from `⌊unit.y - rangeCeil⌋` to `⌈unit.y + rangeCeil⌉`, inner `x` likewise,
with `rangeCeil = ⌈range⌉`. -/
def combatScanPositions (u : Unit) : List (ℤ × ℤ) :=
  let rc : ℤ := ⌈u.range⌉
  (intRangeIncl ⌊u.y - (rc : ℚ)⌋ ⌈u.y + (rc : ℚ)⌉).flatMap (fun y =>
    (intRangeIncl ⌊u.x - (rc : ℚ)⌋ ⌈u.x + (rc : ℚ)⌉).map (fun x => (x, y)))

/-- The source's `Math.sqrt(dx²+dy²) <= range` comparison, as the exact
equivalent square comparison. -/
def withinRange (ux uy px py range : ℚ) : Bool :=
  (ux - px) ^ 2 + (uy - py) ^ 2 ≤ range ^ 2

/-- Damage the first enemy unit of a unit list that is in range
(lines 2512-2517); `none` when no unit of this list is in range. -/
def attackFirstUnit (attack : ℚ) (inRange : Unit → Bool) :
    List Unit → Option (List Unit)
  | [] => none
  | e :: rest =>
      if inRange e then some ({ e with hp := e.hp - attack } :: rest)
      else match attackFirstUnit attack inRange rest with
        | some rest' => some (e :: rest')
        | none => none

/-- The unit-scan phase over all players (lines 2510-2520): the first enemy
unit in range takes the damage and the scan returns. -/
def attackFirstEnemyUnit (pid : String) (attack : ℚ) (inRange : Unit → Bool) :
    List Player → Option (List Player)
  | [] => none
  | p :: rest =>
      if p.id != pid then
        match attackFirstUnit attack inRange p.units with
        | some units' => some ({ p with units := units' } :: rest)
        | none =>
            match attackFirstEnemyUnit pid attack inRange rest with
            | some rest' => some (p :: rest')
            | none => none
      else
        match attackFirstEnemyUnit pid attack inRange rest with
        | some rest' => some (p :: rest')
        | none => none

/-- `handleCombat(unit, ownerId)`: returns the mutated state and whether an
attack happened. -/
def handleCombat (s : GameState) (u : Unit) (pid : String) :
    GameState × Bool :=
  let hit := (combatScanPositions u).find? (fun p =>
    isValid s p.1 p.2 &&
    withinRange u.x u.y (p.1 : ℚ) (p.2 : ℚ) u.range &&
    match (tileAt s p.1 p.2).building with
    | some b => b.ownerId != pid
    | none => false)
  match hit with
  | some p =>
      match (tileAt s p.1 p.2).building with
      | some b =>
          let hp' := b.hp - u.attack
          if hp' ≤ 0 then
            let s₁ :=
              if b.type = BuildingType.KINGDOM then
                match findPlayer s b.ownerId, findPlayer s pid with
                | some victim, some killer => queueWipeOut s killer victim
                | _, _ => s
              else s
            (setTile s₁ p.1 p.2
              { tileAt s₁ p.1 p.2 with building := none, ownerId := none }, true)
          else
            (setTile s p.1 p.2
              { tileAt s p.1 p.2 with building := some { b with hp := hp' } }, true)
      | none => (s, true)
  | none =>
      match attackFirstEnemyUnit pid u.attack
        (fun e => withinRange u.x u.y e.x e.y u.range) s.players with
      | some players' => ({ s with players := players' }, true)
      | none => (s, false)

/-! ## The ownership-cache invariant (spec §8, first invariant)

`player.ownedTiles` must list exactly the positions of the tiles whose
`ownerId` equals the player's id — no duplicates, no omissions.  For
concrete states this is the decidable check below (quantified over the
finite grid). -/

def cacheConsistent (s : GameState) : Bool :=
  s.players.all (fun p =>
    (allPositions s).all (fun pos =>
      p.ownedTiles.count pos
        == (if (tileAt s pos.1 pos.2).ownerId == some p.id then 1 else 0))
    && p.ownedTiles.all (fun pos => isValid s pos.1 pos.2))

/-! # Theorems -/

/-! ## C3: the propagation loop processes at most 20 tiles -/

/-- The `tilesProcessed` counter never leaves `[processed, MAX_CHAIN]` once
it starts at most at `MAX_CHAIN`. -/
theorem applyAttackLoop_count_le (s : GameState) (queue : List QueueItem)
    (processed : ℕ) (h : processed ≤ MAX_CHAIN) :
    (applyAttackLoop s queue processed).2 ≤ MAX_CHAIN := by
  induction s, queue, processed using applyAttackLoop.induct with
  | case1 s processed =>
      simpa [applyAttackLoop] using h
  | case2 s processed item rest hlt hvalid r ih =>
      rw [applyAttackLoop]
      simp only [dif_pos hlt, if_pos hvalid]
      exact ih (by omega)
  | case3 s processed item rest hlt hvalid ih =>
      rw [applyAttackLoop]
      simp only [dif_pos hlt, if_neg hvalid]
      exact ih h
  | case4 s processed item rest hge =>
      rw [applyAttackLoop]
      simpa [dif_neg hge] using h

/-- C3: for every engine state and every initial wave, `applyAttack`
terminates (it is a total function of the embedding, defined by
well-founded recursion on `(MAX_CHAIN - tilesProcessed, queue.length)`)
and its breadth-first loop processes at most 20 tiles, however much
overflow is generated. -/
theorem c3_applyAttack_chain_bound (s : GameState) (atk : AttackWave) :
    (applyAttack s atk).2 ≤ 20 :=
  applyAttackLoop_count_le s _ 0 (by simp [MAX_CHAIN])

/-! ## C2: conservation of overflow power -/

theorem tileAt_updatePlayer (s : GameState) (pid : String) (f : Player → Player)
    (a b : ℤ) : tileAt (updatePlayer s pid f) a b = tileAt s a b := rfl

theorem tileAt_setTile_ne (s : GameState) (x y : ℤ) (t : Tile) (a b : ℤ)
    (h : ¬(a = x ∧ b = y)) : tileAt (setTile s x y t) a b = tileAt s a b := by
  simp [tileAt, setTile, h]

theorem isValid_setTile (s : GameState) (x y : ℤ) (t : Tile) (a b : ℤ) :
    isValid (setTile s x y t) a b = isValid s a b := rfl

/-- The overflow neighbor scan only looks at the four neighbors of the
captured tile, so it is unchanged by any rewrite of the captured tile
itself or of the player list. -/
theorem overflowNeighbors_congr (s s' : GameState) (x y : ℤ) (oid : String)
    (hw : s'.mapWidth = s.mapWidth) (hh : s'.mapHeight = s.mapHeight)
    (hag : ∀ a b : ℤ, ¬(a = x ∧ b = y) → tileAt s' a b = tileAt s a b) :
    overflowNeighbors s' x y oid = overflowNeighbors s x y oid := by
  unfold overflowNeighbors
  apply List.filter_congr
  intro p hp
  have hne : ¬(p.1 = x ∧ p.2 = y) := by
    simp only [neighborOffsets, List.map_cons, List.map_nil,
      List.mem_cons, List.not_mem_nil, or_false] at hp
    rcases hp with h | h | h | h <;> subst h <;> simp
  rw [hag p.1 p.2 hne]
  simp [isValid, hw, hh]

theorem sum_map_const_rat {α : Type} (l : List α) (c : ℚ) :
    (l.map (fun _ => c)).sum = l.length * c := by
  induction l with
  | nil => simp
  | cons a l ih => simp [ih, add_mul]; ring

/-- Conservation of the overflow push, stated for any post-capture state
`s₃` that agrees with the pre-capture state off the captured tile. -/
theorem captureOverflow_sum (s s₃ : GameState) (x y : ℤ)
    (power d : ℚ) (oid : String)
    (hw : s₃.mapWidth = s.mapWidth) (hh : s₃.mapHeight = s.mapHeight)
    (hag : ∀ a b : ℤ, ¬(a = x ∧ b = y) → tileAt s₃ a b = tileAt s a b)
    (hover : 10 < power - d * 10)
    (hnb : overflowNeighbors s x y oid ≠ []) :
    ((captureOverflow s₃ x y power d oid).2.map QueueItem.power).sum
      = power - d * 10 := by
  simp only [captureOverflow]
  rw [overflowNeighbors_congr s s₃ x y oid hw hh hag]
  rw [if_pos hover, if_pos hnb]
  have hlen : ((overflowNeighbors s x y oid).length : ℚ) ≠ 0 := by
    simpa [List.length_eq_zero] using hnb
  simp only [List.map_map, Function.comp_def]
  rw [sum_map_const_rat]
  field_simp

/-- C2: in `applyAttack`, when a wave of power `P` captures a tile whose
defense at the moment of the hit was `initialDefense`, the conquest
consumes `initialDefense * 10` power, and when the remainder exceeds the
overflow threshold (`> 10`) and at least one valid neighbor exists, the sum
of the powers of the overflow entries pushed onto the BFS queue is exactly
`P - initialDefense * 10`. -/
theorem c2_overflow_conservation (s : GameState) (item : QueueItem)
    (tile : Tile) (ht : tileAt s item.x item.y = tile)
    (hb : tile.building = none)
    (hown : tile.ownerId ≠ some item.ownerId)
    (hcap : tile.defense - max (1/10 : ℚ) (item.power / 10) ≤ 0)
    (hover : 10 < item.power - tile.defense * 10)
    (hnb : overflowNeighbors s item.x item.y item.ownerId ≠ []) :
    ((applyAttackStep s item).2.map QueueItem.power).sum
      = item.power - tile.defense * 10 := by
  subst ht
  unfold applyAttackStep
  simp only [hb]
  rw [if_pos hown, if_pos hcap]
  apply captureOverflow_sum s _ item.x item.y item.power
    (tileAt s item.x item.y).defense item.ownerId _ _ _ hover hnb
  · cases (tileAt s item.x item.y).ownerId <;> rfl
  · cases (tileAt s item.x item.y).ownerId <;> rfl
  · intro a b hne
    cases (tileAt s item.x item.y).ownerId <;>
      simp [tileAt_setTile_ne _ _ _ _ _ _ hne, tileAt_updatePlayer]

/-! ## Concrete example states (used by the witnesses and
counterexamples) -/

/-- A land tile with a given owner and defense, no building. -/
def landTile (owner : Option String) (d : ℚ) : Tile :=
  { type := Terrain.LAND, elevation := 1, ownerId := owner, building := none,
    defense := d }

/-- A water tile as produced by map generation: elevation 0, unowned,
defense 0. -/
def waterTile : Tile :=
  { type := Terrain.WATER, elevation := 0, ownerId := none, building := none,
    defense := 0 }

/-- A player with the `createPlayer` defaults and a given owned-tile
cache. -/
def mkPlayer (id : String) (isAI : Bool) (owned : List (ℤ × ℤ)) : Player :=
  { id := id, name := id, color := "#fff", isAI := isAI,
    aiType := AIType.KINGDOM,
    resources := { gold := 100, wood := 100, stone := 50, food := 50 },
    income := { gold := 0, wood := 0, stone := 0, food := 0 },
    population := 5, maxPopulation := 0, militaryPopulation := 0,
    attackTarget := none, units := [], center := (0, 0), landArea := 0,
    ownedTiles := owned }

/-- A small engine state over a square grid given by an explicit tile
function. -/
def mkState (side : ℤ) (grid : ℤ → ℤ → Tile) (total : ℕ)
    (players : List Player) : GameState :=
  { mapWidth := side, mapHeight := side, tiles := grid,
    players := players, attacks := [], tickCount := 0, winnerId := none,
    totalLandTiles := total, isGameActive := false,
    wipeOutQueue := [] }

/-- The positions of the overflow entries pushed by a conquest are exactly
the valid neighbors of the captured tile (no terrain filter), for any
post-capture state agreeing with the pre-capture state off the captured
tile. -/
theorem captureOverflow_positions (s s₃ : GameState) (x y : ℤ)
    (power d : ℚ) (oid : String)
    (hw : s₃.mapWidth = s.mapWidth) (hh : s₃.mapHeight = s.mapHeight)
    (hag : ∀ a b : ℤ, ¬(a = x ∧ b = y) → tileAt s₃ a b = tileAt s a b)
    (hover : 10 < power - d * 10) :
    (captureOverflow s₃ x y power d oid).2.map (fun q => (q.x, q.y))
      = overflowNeighbors s x y oid := by
  simp only [captureOverflow]
  rw [overflowNeighbors_congr s s₃ x y oid hw hh hag, if_pos hover]
  by_cases hnb : overflowNeighbors s x y oid = []
  · simp [hnb]
  · rw [if_pos hnb]
    simp [List.map_map, Function.comp_def]

/-- C2 witness state: a 4×4 land map; tile (1,1) is owned by `"B"` with
defense 2, everything else neutral land. -/
def c2State : GameState :=
  mkState 4
    (fun x y => if x = 1 ∧ y = 1 then landTile (some "B") 2 else landTile none 1)
    16 [mkPlayer "A" false [], mkPlayer "B" false [(1, 1)]]

def c2Item : QueueItem := { x := 1, y := 1, power := 100, ownerId := "A" }

/-- Witness for `c2_overflow_conservation`: a power-100 wave of player A
hits tile (1,1) (defense 2, owner B); the conquest consumes 20 and the four
overflow entries sum to exactly 80. -/
theorem c2_overflow_conservation_witness :
    tileAt c2State c2Item.x c2Item.y = landTile (some "B") 2 ∧
    ((applyAttackStep c2State c2Item).2.map QueueItem.power).sum
      = c2Item.power - (landTile (some "B") 2).defense * 10 :=
  ⟨by decide,
   c2_overflow_conservation c2State c2Item (landTile (some "B") 2)
    (by decide) (by decide) (by decide)
    (by norm_num [c2Item, landTile, max_def])
    (by norm_num [c2Item, landTile]) (by decide)⟩

/-! ## C9: the overflow step applies no terrain filter, and can capture
water -/

/-- C9 example state: a 3×3 map where `"B"` holds (1,1) with defense 1,
(0,1) is water, and every other tile is owned by `"A"`. -/
def c9State : GameState :=
  mkState 3
    (fun x y =>
      if x = 1 ∧ y = 1 then landTile (some "B") 1
      else if x = 0 ∧ y = 1 then waterTile
      else landTile (some "A") 1)
    8
    [mkPlayer "A" false [(0, 0), (1, 0), (2, 0), (1, 2), (2, 1), (0, 2), (2, 2)],
     mkPlayer "B" false [(1, 1)]]

def c9Wave : AttackWave :=
  { ownerId := "A", x := 1, y := 0, targetX := 1, targetY := 1, power := 100 }

/-- C9: (general part) after a conquest the queued next targets are exactly
the in-bounds 4-neighbors of the captured tile whose owner differs from the
attacker — the filter consults only `ownerId` and bounds, never terrain —
and (concrete part) a power-100 wave of `"A"` landing on (1,1) of
`c9State` overflows into the adjacent WATER tile (0,1), which (having
defense 0) is captured: it ends with `ownerId = "A"` and is inserted into
A's `ownedTiles`. -/
theorem c9_overflow_no_terrain_filter :
    (∀ (s : GameState) (item : QueueItem) (tile : Tile),
      tileAt s item.x item.y = tile → tile.building = none →
      tile.ownerId ≠ some item.ownerId →
      tile.defense - max (1/10 : ℚ) (item.power / 10) ≤ 0 →
      10 < item.power - tile.defense * 10 →
      (applyAttackStep s item).2.map (fun q => (q.x, q.y))
        = (neighborOffsets.map (fun n => (item.x + n.1, item.y + n.2))).filter
            (fun p => isValid s p.1 p.2
              && (tileAt s p.1 p.2).ownerId != some item.ownerId)) ∧
    ((tileAt (applyAttack c9State c9Wave).1 0 1).type = Terrain.WATER ∧
     (tileAt (applyAttack c9State c9Wave).1 0 1).ownerId = some "A" ∧
     ∃ p ∈ (applyAttack c9State c9Wave).1.players,
       p.id = "A" ∧ (0, 1) ∈ p.ownedTiles) := by
  constructor
  · intro s item tile ht hb hown hcap hover
    subst ht
    unfold applyAttackStep
    simp only [hb]
    rw [if_pos hown, if_pos hcap]
    rw [captureOverflow_positions s _ item.x item.y item.power
      (tileAt s item.x item.y).defense item.ownerId ?_ ?_ ?_ hover]
    · rfl
    · cases (tileAt s item.x item.y).ownerId <;> rfl
    · cases (tileAt s item.x item.y).ownerId <;> rfl
    · intro a b hne
      cases (tileAt s item.x item.y).ownerId <;>
        simp [tileAt_setTile_ne _ _ _ _ _ _ hne, tileAt_updatePlayer]
  · norm_num +decide [applyAttack, applyAttackLoop, applyAttackStep,
      captureOverflow, overflowNeighbors, neighborOffsets, c9State, c9Wave,
      mkState, mkPlayer, landTile, waterTile, tileAt, setTile, isValid,
      findPlayer, updatePlayer, updateFirstPlayer, MAX_CHAIN, max_def]

/-- Witness for the general part of `c9_overflow_no_terrain_filter`,
discharged on `c2State`: the four queued positions are exactly the four
in-bounds neighbors of (1,1) not owned by the attacker. -/
theorem c9_overflow_no_terrain_filter_witness :
    tileAt c2State c2Item.x c2Item.y = landTile (some "B") 2 ∧
    (applyAttackStep c2State c2Item).2.map (fun q => (q.x, q.y))
      = [(1, 0), (1, 2), (0, 1), (2, 1)] :=
  ⟨by decide,
   (c9_overflow_no_terrain_filter.1 c2State c2Item (landTile (some "B") 2)
      (by decide) (by decide) (by decide)
      (by norm_num [c2Item, landTile, max_def])
      (by norm_num [c2Item, landTile])).trans (by decide)⟩

/-! ## C4: a wave on an own tile -/

theorem tileAt_setTile_self (s : GameState) (x y : ℤ) (t : Tile) :
    tileAt (setTile s x y t) x y = t := by
  simp [tileAt, setTile]

/-- C4 counterexample state: player A owns tile (1,1), which carries A's
own FARM building (hp 200). -/
def c4Building : Building :=
  { type := BuildingType.FARM, ownerId := "A", x := 1, y := 1, hp := 200,
    maxHp := 200, isUnderConstruction := false, constructionProgress := 100 }

def c4State : GameState :=
  mkState 3
    (fun x y =>
      if x = 1 ∧ y = 1 then
        { landTile (some "A") 1 with building := some c4Building }
      else landTile (some "A") 1)
    9 [mkPlayer "A" false [(1, 1)]]

def c4Wave : AttackWave :=
  { ownerId := "A", x := 1, y := 0, targetX := 1, targetY := 1, power := 10 }

/-- C4 counterexample: a power-10 wave of A landing on A's own tile (1,1),
which carries A's own building, reduces that building's hp from 200 to 199
and does not touch the defense — contradicting the claim that the only
effect on an already-owned tile is a defense heal with no building damage.
(The source's building branch tests only `tile.building`, not the
building's owner.) -/
theorem c4_counterexample :
    (tileAt c4State 1 1).ownerId = some c4Wave.ownerId ∧
    (tileAt c4State 1 1).building = some c4Building ∧
    c4Building.hp = 200 ∧
    ((tileAt (applyAttack c4State c4Wave).1 1 1).building.map Building.hp)
      = some 199 ∧
    (199 : ℚ) < 200 ∧
    (tileAt (applyAttack c4State c4Wave).1 1 1).defense
      = (tileAt c4State 1 1).defense := by
  refine ⟨by decide, by decide, by decide, ?_, by norm_num, ?_⟩ <;>
    norm_num +decide [applyAttack, applyAttackLoop, applyAttackStep,
      c4State, c4Wave, c4Building, mkState, mkPlayer, landTile, tileAt,
      setTile, isValid, MAX_CHAIN, max_def]

/-- C4 (amended): a wave landing on a tile already owned by the attacker
and carrying **no building** never changes the tile's ownership, creates no
building, and only heals defense toward the population-derived cap
`1 + ⌊population/2000⌋`, never pushing it beyond the cap (a tile already at
or above the cap is left untouched); every other tile and the player list
are unchanged.  (The original claim is false for own tiles carrying a
building — see `c4_counterexample` — because the building branch fires
before the ownership test.) -/
theorem c4_own_tile_heal_only (s : GameState) (atk : AttackWave) (tile : Tile)
    (hv : isValid s atk.targetX atk.targetY = true)
    (ht : tileAt s atk.targetX atk.targetY = tile)
    (hb : tile.building = none)
    (hown : tile.ownerId = some atk.ownerId) :
    (tileAt (applyAttack s atk).1 atk.targetX atk.targetY).ownerId
        = some atk.ownerId ∧
    (tileAt (applyAttack s atk).1 atk.targetX atk.targetY).building = none ∧
    tile.defense ≤ (tileAt (applyAttack s atk).1 atk.targetX atk.targetY).defense ∧
    (tile.defense < maxDefenseFor s atk.ownerId →
      (tileAt (applyAttack s atk).1 atk.targetX atk.targetY).defense
        ≤ maxDefenseFor s atk.ownerId) ∧
    (¬ tile.defense < maxDefenseFor s atk.ownerId →
      tileAt (applyAttack s atk).1 atk.targetX atk.targetY = tile) ∧
    (applyAttack s atk).1.players = s.players ∧
    (∀ a b : ℤ, ¬(a = atk.targetX ∧ b = atk.targetY) →
      tileAt (applyAttack s atk).1 a b = tileAt s a b) := by
  have hstep : applyAttack s atk
      = (if tile.defense < maxDefenseFor s atk.ownerId then
          (setTile s atk.targetX atk.targetY
            { tile with defense :=
                if maxDefenseFor s atk.ownerId
                    < tile.defense + max (1/10 : ℚ) (atk.power / 10) then
                  maxDefenseFor s atk.ownerId
                else tile.defense + max (1/10 : ℚ) (atk.power / 10) }, 1)
         else (s, 1)) := by
    unfold applyAttack
    rw [applyAttackLoop]
    rw [dif_pos (by norm_num [MAX_CHAIN])]
    rw [if_pos hv]
    unfold applyAttackStep
    simp only [ht, hb]
    rw [if_neg (by simp [hown])]
    by_cases hlt : tile.defense < maxDefenseFor s atk.ownerId
    · simp only [if_pos hlt, List.nil_append]
      rw [applyAttackLoop]
    · simp only [if_neg hlt, List.nil_append]
      rw [applyAttackLoop]
  by_cases hlt : tile.defense < maxDefenseFor s atk.ownerId
  · rw [hstep, if_pos hlt]
    have hd : (0 : ℚ) < max (1/10 : ℚ) (atk.power / 10) :=
      lt_of_lt_of_le (by norm_num) (le_max_left _ _)
    refine ⟨?_, ?_, ?_, ?_, ?_, rfl, ?_⟩
    · simp [tileAt_setTile_self, hown]
    · simp [tileAt_setTile_self, hb]
    · simp only [tileAt_setTile_self]
      split
      · exact le_of_lt hlt
      · linarith
    · intro _
      simp only [tileAt_setTile_self]
      split
      · exact le_refl _
      · linarith [not_lt.mp (by assumption :
          ¬ maxDefenseFor s atk.ownerId
            < tile.defense + max (1/10 : ℚ) (atk.power / 10))]
    · intro h; exact absurd hlt h
    · intro a b hne
      exact tileAt_setTile_ne _ _ _ _ _ _ hne
  · rw [hstep, if_neg hlt]
    exact ⟨by rw [ht, hown], by rw [ht, hb], by rw [ht],
      fun h => absurd h hlt, fun _ => ht, rfl, fun a b _ => rfl⟩

/-- C4 witness state: A (population 4000, so cap `1 + ⌊4000/2000⌋ = 3`)
owns building-free tile (1,1) at defense 1. -/
def c4wState : GameState :=
  mkState 3 (fun _ _ => landTile (some "A") 1) 9
    [{ mkPlayer "A" false [(1, 1)] with population := 4000 }]

/-- Witness for `c4_own_tile_heal_only` at `c4wState` and `c4Wave`. -/
theorem c4_own_tile_heal_only_witness :
    isValid c4wState c4Wave.targetX c4Wave.targetY = true ∧
    (tileAt (applyAttack c4wState c4Wave).1 c4Wave.targetX c4Wave.targetY).ownerId
      = some c4Wave.ownerId ∧
    (tileAt (applyAttack c4wState c4Wave).1 c4Wave.targetX c4Wave.targetY).building
      = none :=
  ⟨by decide,
   (c4_own_tile_heal_only c4wState c4Wave (landTile (some "A") 1)
      (by decide) (by decide) (by decide) (by decide)).1,
   (c4_own_tile_heal_only c4wState c4Wave (landTile (some "A") 1)
      (by decide) (by decide) (by decide) (by decide)).2.1⟩

/-! ## C1: the ownership cache invariant is broken by `handleCombat` -/

/-- B's FARM building on (1,1), at 5 hp. -/
def c1Building : Building :=
  { type := BuildingType.FARM, ownerId := "B", x := 1, y := 1, hp := 5,
    maxHp := 200, isUnderConstruction := false, constructionProgress := 100 }

/-- C1 state: tile (1,1) is owned by B and carries `c1Building`; B's cache
is exactly `[(1,1)]`, so the invariant holds. -/
def c1State : GameState :=
  mkState 3
    (fun x y =>
      if x = 1 ∧ y = 1 then
        { landTile (some "B") 1 with building := some c1Building }
      else landTile none 1)
    9 [mkPlayer "A" false [], mkPlayer "B" false [(1, 1)]]

/-- A's melee unit standing at (1,0), one tile from the farm. -/
def c1Unit : Unit :=
  { type := UnitType.SOLDIER, ownerId := "A", x := 1, y := 0,
    targetX := none, targetY := none, hasCommand := false, idleTicks := 0,
    hp := 50, maxHp := 50, attack := 10, speed := 1/10, range := 1 }

/-- C1 (code bug): the ownership-cache invariant holds in `c1State`; one
`handleCombat` call of A's unit destroys B's building and sets the tile's
`ownerId` to `null` — but (unlike every other ownership-changing site)
without removing the tile from B's `ownedTiles`, so the invariant is false
afterwards: the tile is unowned yet still cached as B's. -/
theorem c1_cache_invariant_broken :
    cacheConsistent c1State = true ∧
    (handleCombat c1State c1Unit "A").2 = true ∧
    (tileAt (handleCombat c1State c1Unit "A").1 1 1).ownerId = none ∧
    (tileAt (handleCombat c1State c1Unit "A").1 1 1).building = none ∧
    (∃ p ∈ (handleCombat c1State c1Unit "A").1.players,
      p.id = "B" ∧ (1, 1) ∈ p.ownedTiles) ∧
    cacheConsistent (handleCombat c1State c1Unit "A").1 = false := by
  have hscan : combatScanPositions c1Unit
      = [(0, -1), (1, -1), (2, -1), (0, 0), (1, 0), (2, 0),
         (0, 1), (1, 1), (2, 1)] := by
    norm_num [combatScanPositions, intRangeIncl, c1Unit]
    decide
  have hHC : handleCombat c1State c1Unit "A"
      = (setTile c1State 1 1
          { type := Terrain.LAND, elevation := 1, ownerId := none,
            building := none, defense := 1 }, true) := by
    rw [handleCombat, hscan]
    norm_num +decide [c1State, c1Unit, c1Building, mkState, mkPlayer,
      landTile, tileAt, isValid, withinRange, findPlayer, queueWipeOut]
  refine ⟨by decide, by rw [hHC], by rw [hHC]; decide, by rw [hHC]; decide,
    ⟨mkPlayer "B" false [(1, 1)], ?_, by decide, by decide⟩,
    by rw [hHC]; decide⟩
  rw [hHC]
  decide

/-! ## C6: `placeBuilding` does not consult `canBuild` -/

theorem findPlayer_setTile (s : GameState) (x y : ℤ) (t : Tile)
    (pid : String) : findPlayer (setTile s x y t) pid = findPlayer s pid := rfl

theorem find?_updateFirst_self (ps : List Player) (pid : String)
    (f : Player → Player) (p : Player)
    (hid : ∀ q, (f q).id = q.id)
    (h : ps.find? (fun q => q.id == pid) = some p) :
    (updateFirstPlayer ps pid f).find? (fun q => q.id == pid)
      = some (f p) := by
  induction ps with
  | nil => simp at h
  | cons q rest ih =>
      by_cases hq : q.id = pid
      · rw [List.find?_cons_of_pos _ (by simp [hq])] at h
        have hp : q = p := by simpa using h
        subst hp
        rw [updateFirstPlayer, if_pos (by simp [hq])]
        rw [List.find?_cons_of_pos _ (by simp [hid, hq])]
      · rw [List.find?_cons_of_neg _ (by simp [hq])] at h
        rw [updateFirstPlayer, if_neg (by simp [hq])]
        rw [List.find?_cons_of_neg _ (by simp [hq])]
        exact ih h

theorem find?_updateFirst_ne (ps : List Player) (other pid : String)
    (f : Player → Player)
    (hid : ∀ q, (f q).id = q.id) (hne : other ≠ pid) :
    (updateFirstPlayer ps other f).find? (fun q => q.id == pid)
      = ps.find? (fun q => q.id == pid) := by
  induction ps with
  | nil => rfl
  | cons q rest ih =>
      by_cases hq : q.id = other
      · rw [updateFirstPlayer, if_pos (by simp [hq])]
        rw [List.find?_cons_of_neg _ (by simp [hid, hq]; exact hne)]
        rw [List.find?_cons_of_neg _ (by simp [hq]; exact hne)]
      · rw [updateFirstPlayer, if_neg (by simp [hq])]
        by_cases hqp : q.id = pid
        · rw [List.find?_cons_of_pos _ (by simp [hqp]),
            List.find?_cons_of_pos _ (by simp [hqp])]
        · rw [List.find?_cons_of_neg _ (by simp [hqp]),
            List.find?_cons_of_neg _ (by simp [hqp])]
          exact ih

theorem findPlayer_updatePlayer_self (s : GameState) (pid : String)
    (f : Player → Player) (p : Player)
    (hid : ∀ q, (f q).id = q.id)
    (h : findPlayer s pid = some p) :
    findPlayer (updatePlayer s pid f) pid = some (f p) :=
  find?_updateFirst_self s.players pid f p hid h

theorem findPlayer_updatePlayer_ne (s : GameState) (other pid : String)
    (f : Player → Player)
    (hid : ∀ q, (f q).id = q.id) (hne : other ≠ pid) :
    findPlayer (updatePlayer s other f) pid = findPlayer s pid :=
  find?_updateFirst_ne s.players other pid f hid hne

/-- C6 example state: player A (default resources: 100 gold) owns the
building-free land tile (1,1). -/
def c6State : GameState :=
  mkState 3 (fun _ _ => landTile (some "A") 1) 9
    [mkPlayer "A" false [(1, 1)]]

/-- C6 counterexample: `canBuild` is false for a CASTLE at (1,1) (its cost
of 1000 gold exceeds A's 100), yet the non-free `placeBuilding` call does
not leave the state unchanged: it returns a state in which the CASTLE
building exists on the tile and A's gold is −900 (the full cost was
deducted below zero). -/
theorem c6_counterexample :
    canBuild c6State "A" BuildingType.CASTLE 1 1 = false ∧
    ((placeBuilding c6State "A" BuildingType.CASTLE 1 1 false).map
        (fun s' => ((tileAt s' 1 1).building.map Building.type,
                    s'.players.map (fun p => p.resources.gold))))
      = some (some BuildingType.CASTLE, [-900]) := by
  constructor
  · norm_num +decide [canBuild, c6State, mkState, mkPlayer, landTile,
      tileAt, isValid, elevationOk, canAfford, findPlayer, BUILDING_COSTS,
      isAdjacentToPlayer]
  · norm_num +decide [placeBuilding, c6State, mkState, mkPlayer, landTile,
      tileAt, setTile, isValid, findPlayer, updatePlayer,
      updateFirstPlayer, BUILDING_COSTS, buildingMaxHp]

/-- C6 (amended): `canBuild` is a pure predicate of the state (modelled as
a function, so repeated calls with unchanged state agree by construction),
but `placeBuilding` never consults it: when the player lookup fails the
call returns the state unchanged, and otherwise — for in-bounds
coordinates — it always installs the building on the tile and deducts the
full building cost from the player's resources, even when `canBuild` is
false (e.g. with insufficient resources, see `c6_counterexample`). -/
theorem c6_placeBuilding_unguarded :
    (∀ (s : GameState) (pid : String) (type : BuildingType) (x y : ℤ),
      findPlayer s pid = none →
      placeBuilding s pid type x y false = some s) ∧
    (∀ (s : GameState) (pid : String) (type : BuildingType) (x y : ℤ)
      (player : Player),
      findPlayer s pid = some player → isValid s x y = true →
      ∃ s', placeBuilding s pid type x y false = some s' ∧
        (tileAt s' x y).building = some
          { type := type, ownerId := pid, x := x, y := y,
            hp := buildingMaxHp type, maxHp := buildingMaxHp type,
            isUnderConstruction := true, constructionProgress := 0 } ∧
        ∃ p', findPlayer s' pid = some p' ∧
          p'.resources = { gold := player.resources.gold - (BUILDING_COSTS type).gold,
                           wood := player.resources.wood - (BUILDING_COSTS type).wood,
                           stone := player.resources.stone - (BUILDING_COSTS type).stone,
                           food := player.resources.food - (BUILDING_COSTS type).food }) := by
  constructor
  · intro s pid type x y h
    unfold placeBuilding
    rw [h]
  · intro s pid type x y player hfind hvalid
    unfold placeBuilding
    simp only [hfind, Bool.false_eq_true, if_false, tileAt_updatePlayer]
    rw [if_pos (show isValid (updatePlayer s pid _) x y = true from hvalid)]
    have hdeduct : findPlayer (updatePlayer s pid (fun p =>
        { p with resources := { gold := p.resources.gold - (BUILDING_COSTS type).gold,
                                wood := p.resources.wood - (BUILDING_COSTS type).wood,
                                stone := p.resources.stone - (BUILDING_COSTS type).stone,
                                food := p.resources.food - (BUILDING_COSTS type).food } })) pid
        = some { player with resources :=
            { gold := player.resources.gold - (BUILDING_COSTS type).gold,
              wood := player.resources.wood - (BUILDING_COSTS type).wood,
              stone := player.resources.stone - (BUILDING_COSTS type).stone,
              food := player.resources.food - (BUILDING_COSTS type).food } } :=
      findPlayer_updatePlayer_self s pid _ player (fun _ => rfl) hfind
    by_cases hown : (tileAt s x y).ownerId = some pid
    · rw [if_neg (not_not_intro hown)]
      refine ⟨_, rfl, ?_, ?_⟩
      · rw [tileAt_updatePlayer, tileAt_setTile_self]; rfl
      · refine ⟨_, findPlayer_updatePlayer_self _ pid _ _
          (fun q => by split <;> rfl)
          (by rw [findPlayer_setTile]; exact hdeduct), ?_⟩
        split <;> rfl
    · rw [if_pos hown]
      cases holds : (tileAt s x y).ownerId with
      | none =>
          dsimp only
          refine ⟨_, rfl, ?_, ?_⟩
          · simp [tileAt_setTile_self, tileAt_updatePlayer]
          · refine ⟨{ player with
                resources := { gold := player.resources.gold - (BUILDING_COSTS type).gold,
                               wood := player.resources.wood - (BUILDING_COSTS type).wood,
                               stone := player.resources.stone - (BUILDING_COSTS type).stone,
                               food := player.resources.food - (BUILDING_COSTS type).food },
                ownedTiles := player.ownedTiles ++ [(x, y)] }, ?_, rfl⟩
            exact findPlayer_updatePlayer_self _ pid
              (fun p => { p with ownedTiles := p.ownedTiles ++ [(x, y)] })
              _ (fun _ => rfl) hdeduct
      | some old =>
          have hne : old ≠ pid := fun hc => hown (by rw [holds, hc])
          dsimp only
          refine ⟨_, rfl, ?_, ?_⟩
          · simp [tileAt_setTile_self, tileAt_updatePlayer]
          · refine ⟨{ player with
                resources := { gold := player.resources.gold - (BUILDING_COSTS type).gold,
                               wood := player.resources.wood - (BUILDING_COSTS type).wood,
                               stone := player.resources.stone - (BUILDING_COSTS type).stone,
                               food := player.resources.food - (BUILDING_COSTS type).food },
                ownedTiles := player.ownedTiles ++ [(x, y)] }, ?_, rfl⟩
            exact findPlayer_updatePlayer_self _ pid
              (fun p => { p with ownedTiles := p.ownedTiles ++ [(x, y)] })
              _ (fun _ => rfl)
              ((findPlayer_updatePlayer_ne _ old pid
                  (fun o => { o with
                    ownedTiles := o.ownedTiles.filter (fun t => t ≠ (x, y)) })
                  (fun _ => rfl) hne).trans hdeduct)

/-- Witness for `c6_placeBuilding_unguarded`: its second part applied to
`c6State` (player A, CASTLE at (1,1)). -/
theorem c6_placeBuilding_unguarded_witness :
    findPlayer c6State "A" = some (mkPlayer "A" false [(1, 1)]) ∧
    ∃ s', placeBuilding c6State "A" BuildingType.CASTLE 1 1 false = some s' ∧
      (tileAt s' 1 1).building = some
        { type := BuildingType.CASTLE, ownerId := "A", x := 1, y := 1,
          hp := buildingMaxHp BuildingType.CASTLE,
          maxHp := buildingMaxHp BuildingType.CASTLE,
          isUnderConstruction := true, constructionProgress := 0 } ∧
      ∃ p', findPlayer s' "A" = some p' ∧
        p'.resources = { gold := (mkPlayer "A" false [(1, 1)]).resources.gold
                            - (BUILDING_COSTS BuildingType.CASTLE).gold,
                         wood := (mkPlayer "A" false [(1, 1)]).resources.wood
                            - (BUILDING_COSTS BuildingType.CASTLE).wood,
                         stone := (mkPlayer "A" false [(1, 1)]).resources.stone
                            - (BUILDING_COSTS BuildingType.CASTLE).stone,
                         food := (mkPlayer "A" false [(1, 1)]).resources.food
                            - (BUILDING_COSTS BuildingType.CASTLE).food } :=
  ⟨by decide,
   c6_placeBuilding_unguarded.2 c6State "A" BuildingType.CASTLE 1 1
     (mkPlayer "A" false [(1, 1)]) (by decide) (by decide)⟩

/-! ## C10: `claimRadius` -/

/-- A scan position is claimed exactly when it is in bounds, within
Euclidean distance `r` of `(cx, cy)` (exact integer-square form of the
source's `Math.sqrt` comparison), unclaimed, and land. -/
def claimableB (s : GameState) (cx cy : ℤ) (r : ℕ) (p : ℤ × ℤ) : Bool :=
  isValid s p.1 p.2
    && decide ((p.1 - cx) ^ 2 + (p.2 - cy) ^ 2 ≤ (r : ℤ) ^ 2)
    && ((tileAt s p.1 p.2).type == Terrain.LAND)
    && ((tileAt s p.1 p.2).ownerId == none)

theorem claimableB_congr (t t' : GameState) (cx cy : ℤ) (r : ℕ)
    (hw : t'.mapWidth = t.mapWidth) (hh : t'.mapHeight = t.mapHeight)
    (q p : ℤ × ℤ) (hne : q ≠ p)
    (hag : ∀ a b : ℤ, ¬(a = p.1 ∧ b = p.2) → tileAt t' a b = tileAt t a b) :
    claimableB t' cx cy r q = claimableB t cx cy r q := by
  have hq : ¬(q.1 = p.1 ∧ q.2 = p.2) := by
    intro hc
    exact hne (Prod.ext hc.1 hc.2)
  unfold claimableB
  rw [hag q.1 q.2 hq]
  simp [isValid, hw, hh]

/-- An unclaimable scan position leaves the accumulator untouched. -/
theorem claimStep_not (pid : String) (cx cy : ℤ) (r : ℕ) (t : GameState)
    (c : ℕ) (p : ℤ × ℤ) (h : claimableB t cx cy r p = false) :
    claimStep pid cx cy r (t, c) p = (t, c) := by
  unfold claimStep
  simp only [claimableB, Bool.and_eq_false_iff] at h
  by_cases h1 : isValid t p.1 p.2
  · rw [if_pos h1]
    by_cases h2 : (p.1 - cx) ^ 2 + (p.2 - cy) ^ 2 ≤ (r : ℤ) ^ 2
    · rw [if_pos h2]
      rw [if_neg]
      intro hc
      rcases h with ((h | h) | h) | h
      · exact absurd h1 (by simpa using h)
      · exact absurd h2 (by simpa using h)
      · exact absurd hc.1 (by simpa using h)
      · exact absurd hc.2 (by simpa using h)
    · rw [if_neg h2]
  · rw [if_neg h1]

/-- A claimable scan position is claimed: the tile gets the new owner and
the population-derived defense, the cache is appended, everything else is
untouched, and the count increments. -/
theorem claimStep_claimable (pid : String) (cx cy : ℤ) (r : ℕ)
    (t : GameState) (c : ℕ) (p : ℤ × ℤ) (Q : Player)
    (hfind : findPlayer t pid = some Q)
    (h : claimableB t cx cy r p = true) :
    ∃ t', claimStep pid cx cy r (t, c) p = (t', c + 1) ∧
      tileAt t' p.1 p.2
        = { tileAt t p.1 p.2 with
            ownerId := some pid,
            defense := 1 + ((⌊Q.population / 2000⌋ : ℤ) : ℚ) } ∧
      (∀ a b : ℤ, ¬(a = p.1 ∧ b = p.2) → tileAt t' a b = tileAt t a b) ∧
      findPlayer t' pid = some { Q with ownedTiles := Q.ownedTiles ++ [p] } ∧
      (∀ qid, qid ≠ pid → findPlayer t' qid = findPlayer t qid) ∧
      t'.mapWidth = t.mapWidth ∧ t'.mapHeight = t.mapHeight := by
  simp only [claimableB, Bool.and_eq_true, decide_eq_true_eq, beq_iff_eq]
    at h
  obtain ⟨⟨⟨h1, h2⟩, h3⟩, h4⟩ := h
  simp only [claimStep]
  rw [if_pos h1, if_pos h2, if_pos ⟨h3, h4⟩, findPlayer_setTile, hfind]
  refine ⟨_, rfl, ?_, ?_, ?_, ?_, rfl, rfl⟩
  · rw [tileAt_updatePlayer, tileAt_setTile_self, tileAt_setTile_self]
  · intro a b hne
    rw [tileAt_updatePlayer, tileAt_setTile_ne _ _ _ _ _ _ hne,
      tileAt_setTile_ne _ _ _ _ _ _ hne]
  · exact findPlayer_updatePlayer_self _ pid _ _ (fun _ => rfl) hfind
  · intro qid hq
    exact findPlayer_updatePlayer_ne _ pid qid _ (fun _ => rfl)
      (fun hc => hq hc.symm)

/-- The loop invariant of `claimRadius`'s double scan, for any suffix `L`
of distinct scan positions. -/
theorem claimLoop_spec (pid : String) (cx cy : ℤ) (r : ℕ) :
    ∀ (L : List (ℤ × ℤ)), L.Nodup → ∀ (t : GameState) (c : ℕ) (Q : Player),
      findPlayer t pid = some Q →
      (∀ p : ℤ × ℤ, p ∉ L →
        tileAt (L.foldl (claimStep pid cx cy r) (t, c)).1 p.1 p.2
          = tileAt t p.1 p.2) ∧
      (∀ p ∈ L, claimableB t cx cy r p = true →
        tileAt (L.foldl (claimStep pid cx cy r) (t, c)).1 p.1 p.2
          = { tileAt t p.1 p.2 with
              ownerId := some pid,
              defense := 1 + ((⌊Q.population / 2000⌋ : ℤ) : ℚ) }) ∧
      (∀ p ∈ L, claimableB t cx cy r p = false →
        tileAt (L.foldl (claimStep pid cx cy r) (t, c)).1 p.1 p.2
          = tileAt t p.1 p.2) ∧
      (L.foldl (claimStep pid cx cy r) (t, c)).2
        = c + (L.filter (claimableB t cx cy r)).length ∧
      findPlayer (L.foldl (claimStep pid cx cy r) (t, c)).1 pid
        = some { Q with ownedTiles :=
            Q.ownedTiles ++ L.filter (claimableB t cx cy r) } ∧
      (∀ qid, qid ≠ pid →
        findPlayer (L.foldl (claimStep pid cx cy r) (t, c)).1 qid
          = findPlayer t qid) ∧
      (L.foldl (claimStep pid cx cy r) (t, c)).1.mapWidth = t.mapWidth ∧
      (L.foldl (claimStep pid cx cy r) (t, c)).1.mapHeight = t.mapHeight := by
  intro L
  induction L with
  | nil =>
      intro _ t c Q hfind
      exact ⟨fun _ _ => rfl, fun p hp => absurd hp (List.not_mem_nil p),
        fun p hp => absurd hp (List.not_mem_nil p), by simp, by simp [hfind],
        fun _ _ => rfl, rfl, rfl⟩
  | cons p L' ih =>
      intro hnd t c Q hfind
      have hpL' : p ∉ L' := (List.nodup_cons.mp hnd).1
      have hnd' : L'.Nodup := (List.nodup_cons.mp hnd).2
      by_cases hcl : claimableB t cx cy r p = true
      · obtain ⟨t', hstep, ht'p, ht'ne, hfp', hfq', hw, hh⟩ :=
          claimStep_claimable pid cx cy r t c p Q hfind hcl
        have hfold : (p :: L').foldl (claimStep pid cx cy r) (t, c)
            = L'.foldl (claimStep pid cx cy r) (t', c + 1) := by
          simp [List.foldl_cons, hstep]
        obtain ⟨ia, ib, ic, id, ie, if', ig, ih'⟩ :=
          ih hnd' t' (c + 1) { Q with ownedTiles := Q.ownedTiles ++ [p] } hfp'
        have hcongr : ∀ q ∈ L', claimableB t' cx cy r q
            = claimableB t cx cy r q := fun q hq =>
          claimableB_congr t t' cx cy r hw hh q p
            (fun hc => hpL' (hc ▸ hq)) ht'ne
        have hfiltcongr : L'.filter (claimableB t' cx cy r)
            = L'.filter (claimableB t cx cy r) :=
          List.filter_congr hcongr
        rw [hfold]
        refine ⟨?_, ?_, ?_, ?_, ?_, ?_, ?_, ?_⟩
        · intro q hq
          have hq1 : q ∉ L' := fun hc => hq (List.mem_cons_of_mem p hc)
          have hq2 : q ≠ p := fun hc => hq (hc ▸ List.mem_cons_self p L')
          rw [ia q hq1]
          exact ht'ne q.1 q.2 (fun hc => hq2 (Prod.ext hc.1 hc.2))
        · intro q hq hqc
          rcases List.mem_cons.mp hq with hq | hq
          · subst hq
            rw [ia q hpL', ht'p]
          · rw [ib q hq ((hcongr q hq).trans hqc)]
            rw [ht'ne q.1 q.2 (fun hc =>
              hpL' ((Prod.ext hc.1 hc.2 : q = p) ▸ hq))]
        · intro q hq hqc
          rcases List.mem_cons.mp hq with hq | hq
          · subst hq
            rw [hqc] at hcl
            simp at hcl
          · rw [ic q hq ((hcongr q hq).trans hqc)]
            exact ht'ne q.1 q.2 (fun hc =>
              hpL' ((Prod.ext hc.1 hc.2 : q = p) ▸ hq))
        · rw [id, hfiltcongr, List.filter_cons, if_pos hcl]
          simp [Nat.add_assoc, Nat.add_comm 1]
        · rw [ie, hfiltcongr, List.filter_cons, if_pos hcl]
          simp [List.append_assoc]
        · intro qid hq
          rw [if' qid hq, hfq' qid hq]
        · rw [ig, hw]
        · rw [ih', hh]
      · replace hcl : claimableB t cx cy r p = false := by
          simpa using hcl
        have hfold : (p :: L').foldl (claimStep pid cx cy r) (t, c)
            = L'.foldl (claimStep pid cx cy r) (t, c) := by
          simp [List.foldl_cons, claimStep_not pid cx cy r t c p hcl]
        obtain ⟨ia, ib, ic, id, ie, if', ig, ih'⟩ := ih hnd' t c Q hfind
        rw [hfold]
        refine ⟨?_, ?_, ?_, ?_, ?_, if', ig, ih'⟩
        · intro q hq
          exact ia q (fun hc => hq (List.mem_cons_of_mem p hc))
        · intro q hq hqc
          rcases List.mem_cons.mp hq with hq | hq
          · subst hq
            rw [hqc] at hcl
            cases hcl
          · exact ib q hq hqc
        · intro q hq hqc
          rcases List.mem_cons.mp hq with hq | hq
          · subst hq
            exact ia q hpL'
          · exact ic q hq hqc
        · rw [id, List.filter_cons, if_neg (by simp [hcl])]
        · rw [ie, List.filter_cons, if_neg (by simp [hcl])]

theorem claimScanList_nodup (cx cy : ℤ) (r : ℕ) :
    (claimScanList cx cy r).Nodup := by
  unfold claimScanList
  rw [List.nodup_flatMap]
  constructor
  · intro dy _
    refine List.Nodup.map ?_ (List.nodup_range _)
    intro a b hab
    simp only [Prod.mk.injEq] at hab
    omega
  · refine (List.nodup_range _).imp ?_
    intro a b hab q hq₁ hq₂
    simp only [Function.onFun, List.mem_map] at hq₁ hq₂
    obtain ⟨d₁, _, rfl⟩ := hq₁
    obtain ⟨d₂, _, hq⟩ := hq₂
    simp only [Prod.mk.injEq] at hq
    omega

theorem claimScanList_mem (cx cy : ℤ) (r : ℕ) (p : ℤ × ℤ) :
    p ∈ claimScanList cx cy r ↔
      cx - r ≤ p.1 ∧ p.1 ≤ cx + r ∧ cy - r ≤ p.2 ∧ p.2 ≤ cy + r := by
  obtain ⟨px, py⟩ := p
  unfold claimScanList
  simp only [List.mem_flatMap, List.mem_map, List.mem_range, Prod.mk.injEq]
  constructor
  · rintro ⟨dy, hdy, dx, hdx, h1, h2⟩
    refine ⟨?_, ?_, ?_, ?_⟩ <;> omega
  · rintro ⟨h1, h2, h3, h4⟩
    exact ⟨(py - (cy - r)).toNat, by omega,
      ⟨(px - (cx - r)).toNat, by omega, by omega, by omega⟩⟩

theorem intsq_bounds (a r : ℤ) (hr : 0 ≤ r) (h : a ^ 2 ≤ r ^ 2) :
    -r ≤ a ∧ a ≤ r := by
  constructor <;> nlinarith

/-- A claimable position lies inside the scanned square. -/
theorem claimableB_mem_scan (s : GameState) (cx cy : ℤ) (r : ℕ)
    (p : ℤ × ℤ) (h : claimableB s cx cy r p = true) :
    p ∈ claimScanList cx cy r := by
  simp only [claimableB, Bool.and_eq_true, decide_eq_true_eq] at h
  obtain ⟨⟨⟨_, h2⟩, _⟩, _⟩ := h
  have hx := intsq_bounds (p.1 - cx) r (by positivity)
    (by nlinarith [sq_nonneg (p.2 - cy)])
  have hy := intsq_bounds (p.2 - cy) r (by positivity)
    (by nlinarith [sq_nonneg (p.1 - cx)])
  rw [claimScanList_mem]
  omega

/-- C10: `claimRadius(playerId, cx, cy, r)`, for a `playerId` present in
`players`, claims exactly the in-bounds unclaimed LAND tiles within
Euclidean distance `r` of the centre: each gets `ownerId = playerId` and
defense `1 + ⌊population/2000⌋`; every other tile is unchanged; the
returned count is the number of claimed tiles; the claimed positions are
appended (in scan order) to the player's `ownedTiles`; all other players
are untouched. -/
theorem c10_claimRadius_correct (s : GameState) (pid : String) (cx cy : ℤ)
    (r : ℕ) (P : Player) (hfind : findPlayer s pid = some P) :
    (∀ p : ℤ × ℤ, claimableB s cx cy r p = true →
      tileAt (claimRadius s pid cx cy r).1 p.1 p.2
        = { tileAt s p.1 p.2 with
            ownerId := some pid,
            defense := 1 + ((⌊P.population / 2000⌋ : ℤ) : ℚ) }) ∧
    (∀ p : ℤ × ℤ, claimableB s cx cy r p = false →
      tileAt (claimRadius s pid cx cy r).1 p.1 p.2 = tileAt s p.1 p.2) ∧
    (claimRadius s pid cx cy r).2
      = ((claimScanList cx cy r).filter (claimableB s cx cy r)).length ∧
    findPlayer (claimRadius s pid cx cy r).1 pid
      = some { P with ownedTiles :=
          P.ownedTiles ++ (claimScanList cx cy r).filter (claimableB s cx cy r) } ∧
    (∀ qid, qid ≠ pid →
      findPlayer (claimRadius s pid cx cy r).1 qid = findPlayer s qid) := by
  obtain ⟨ia, ib, ic, id, ie, if', -, -⟩ :=
    claimLoop_spec pid cx cy r (claimScanList cx cy r)
      (claimScanList_nodup cx cy r) s 0 P hfind
  unfold claimRadius
  refine ⟨?_, ?_, by rw [id, Nat.zero_add], ie, if'⟩
  · intro p hp
    exact ib p (claimableB_mem_scan s cx cy r p hp) hp
  · intro p hp
    by_cases hmem : p ∈ claimScanList cx cy r
    · exact ic p hmem hp
    · exact ia p hmem

/-- C10 witness state: a 3×3 all-neutral land map with player A. -/
def c10State : GameState :=
  mkState 3 (fun _ _ => landTile none 1) 9 [mkPlayer "A" false []]

/-- Witness for `c10_claimRadius_correct`: claiming radius 1 around (1,1)
claims exactly the five tiles at Euclidean distance ≤ 1. -/
theorem c10_claimRadius_correct_witness :
    findPlayer c10State "A" = some (mkPlayer "A" false []) ∧
    (claimRadius c10State "A" 1 1 1).2
      = ((claimScanList 1 1 1).filter (claimableB c10State 1 1 1)).length ∧
    ((claimScanList 1 1 1).filter (claimableB c10State 1 1 1)).length = 5 :=
  ⟨by decide,
   (c10_claimRadius_correct c10State "A" 1 1 1 (mkPlayer "A" false [])
      (by decide)).2.2.1,
   by decide⟩

/-! ## C5: dispatch conservation -/

/-- Total power of a list of attack waves. -/
def sumPow (ws : List AttackWave) : ℚ := (ws.map AttackWave.power).sum

theorem sumPow_append (a b : List AttackWave) :
    sumPow (a ++ b) = sumPow a + sumPow b := by
  simp [sumPow]

/-- The inner target loop never raises the budget. -/
theorem dispatchTargets_le (pid : String) (src : ℤ × ℤ) (ppt : ℤ)
    (hppt : 0 ≤ ppt) :
    ∀ (targets : List (ℤ × ℤ)) (budget : ℤ) (waves : List AttackWave),
      (dispatchTargets pid src ppt targets budget waves).1 ≤ budget := by
  intro targets
  induction targets with
  | nil => intro b w; exact le_refl b
  | cons t ts ih =>
      intro b w
      simp only [dispatchTargets, List.foldl_cons]
      by_cases h : (0 : ℤ) < b
      · rw [if_pos h]
        have := ih (b - ppt)
          (w ++ [⟨pid, (src.1 : ℚ), (src.2 : ℚ), t.1, t.2, (ppt : ℚ)⟩])
        simp only [dispatchTargets] at this
        omega
      · rw [if_neg h]
        have := ih b w
        simp only [dispatchTargets] at this
        exact this

/-- Each wave created by the inner loop deducts exactly its own power:
the total power of the appended waves equals the budget drop. -/
theorem dispatchTargets_sum (pid : String) (src : ℤ × ℤ) (ppt : ℤ) :
    ∀ (targets : List (ℤ × ℤ)) (budget : ℤ) (waves : List AttackWave),
      sumPow (dispatchTargets pid src ppt targets budget waves).2
        = sumPow waves
          + ((budget - (dispatchTargets pid src ppt targets budget waves).1 : ℤ) : ℚ) := by
  intro targets
  induction targets with
  | nil => intro b w; simp [dispatchTargets]
  | cons t ts ih =>
      intro b w
      simp only [dispatchTargets, List.foldl_cons]
      by_cases h : (0 : ℤ) < b
      · rw [if_pos h]
        have := ih (b - ppt)
          (w ++ [⟨pid, (src.1 : ℚ), (src.2 : ℚ), t.1, t.2, (ppt : ℚ)⟩])
        simp only [dispatchTargets] at this
        rw [this, sumPow_append]
        simp [sumPow]
        ring
      · rw [if_neg h]
        have := ih b w
        simp only [dispatchTargets] at this
        exact this

/-- The inner loop keeps the budget non-negative, because the per-target
power is either 1 (subtracted only while the budget is positive) or small
enough that all targets together fit in the budget. -/
theorem dispatchTargets_nonneg (pid : String) (src : ℤ × ℤ) (ppt : ℤ)
    (hppt : 1 ≤ ppt) :
    ∀ (targets : List (ℤ × ℤ)) (budget : ℤ) (waves : List AttackWave),
      0 ≤ budget → (ppt = 1 ∨ (targets.length : ℤ) * ppt ≤ budget) →
      0 ≤ (dispatchTargets pid src ppt targets budget waves).1 := by
  intro targets
  induction targets with
  | nil => intro b w hb _; exact hb
  | cons t ts ih =>
      intro b w hb hcond
      simp only [dispatchTargets, List.foldl_cons]
      by_cases h : (0 : ℤ) < b
      · rw [if_pos h]
        have hts : 0 ≤ b - ppt ∧ (ppt = 1 ∨ (ts.length : ℤ) * ppt ≤ b - ppt) := by
          rcases hcond with h1 | h1
          · subst h1
            exact ⟨by omega, Or.inl rfl⟩
          · simp only [List.length_cons] at h1
            push_cast at h1
            constructor
            · nlinarith [Int.natCast_nonneg ts.length]
            · right; nlinarith
        have := ih (b - ppt)
          (w ++ [⟨pid, (src.1 : ℚ), (src.2 : ℚ), t.1, t.2, (ppt : ℚ)⟩])
          hts.1 hts.2
        simpa only [dispatchTargets] using this
      · rw [if_neg h]
        have hcond' : ppt = 1 ∨ (ts.length : ℤ) * ppt ≤ b := by
          rcases hcond with h1 | h1
          · exact Or.inl h1
          · right
            simp only [List.length_cons] at h1
            push_cast at h1
            nlinarith
        have := ih b w hb hcond'
        simpa only [dispatchTargets] using this

/-- The candidate loop: the budget stays within `[0, budget₀]` and the
total power of the created waves equals the budget drop. -/
theorem dispatchCandLoop_spec (pid : String) (ppS : ℤ) (_hppS : 1 ≤ ppS) :
    ∀ (cands : List ((ℤ × ℤ) × List (ℤ × ℤ))) (budget : ℤ)
      (waves : List AttackWave), 0 ≤ budget →
      0 ≤ (dispatchCandLoop pid ppS cands budget waves).1 ∧
      (dispatchCandLoop pid ppS cands budget waves).1 ≤ budget ∧
      sumPow (dispatchCandLoop pid ppS cands budget waves).2
        = sumPow waves
          + ((budget - (dispatchCandLoop pid ppS cands budget waves).1 : ℤ) : ℚ) := by
  intro cands
  induction cands with
  | nil =>
      intro b w hb
      exact ⟨hb, le_refl b, by simp [dispatchCandLoop]⟩
  | cons c rest ih =>
      intro b w hb
      rw [dispatchCandLoop]
      by_cases hstop : b ≤ 0
      · rw [if_pos hstop]
        exact ⟨hb, le_refl b, by simp⟩
      · rw [if_neg hstop]
        have hbpos : 0 < b := by omega
        have hppt : 1 ≤ max 1 (min ppS b / (c.2.length : ℤ)) := le_max_left _ _
        have hcond : max 1 (min ppS b / (c.2.length : ℤ)) = 1 ∨
            (c.2.length : ℤ) * max 1 (min ppS b / (c.2.length : ℤ)) ≤ b := by
          by_cases hq : 1 ≤ min ppS b / (c.2.length : ℤ)
          · right
            rw [max_eq_right hq]
            have hlen : (c.2.length : ℤ) ≠ 0 := by
              intro hc
              rw [hc] at hq
              simp [Int.ediv_zero] at hq
            calc (c.2.length : ℤ) * (min ppS b / (c.2.length : ℤ))
                = min ppS b / (c.2.length : ℤ) * (c.2.length : ℤ) := by ring
              _ ≤ min ppS b := Int.ediv_mul_le _ hlen
              _ ≤ b := min_le_right _ _
          · left
            rw [max_eq_left
              (show min ppS b / (c.2.length : ℤ) ≤ 1 by omega)]
        have h1 := dispatchTargets_nonneg pid c.1 _ hppt c.2 b w (le_of_lt hbpos) hcond
        have h2 := dispatchTargets_le pid c.1
          (max 1 (min ppS b / (c.2.length : ℤ)))
          (le_trans zero_le_one hppt) c.2 b w
        have h3 := dispatchTargets_sum pid c.1
          (max 1 (min ppS b / (c.2.length : ℤ))) c.2 b w
        obtain ⟨i1, i2, i3⟩ := ih _ _ h1
        refine ⟨i1, le_trans i2 h2, ?_⟩
        rw [i3, h3]
        push_cast
        ring_nf

/-- The budget phase satisfies the conservation bounds, for any sorted
candidate list. -/
theorem dispatchBudget_spec (s : GameState) (pid : String) (player : Player)
    (sorted : List ((ℤ × ℤ) × List (ℤ × ℤ)))
    (hfind : findPlayer s pid = some player)
    (hmp : 1 ≤ player.militaryPopulation) :
    ∃ (waves : List AttackWave) (spent : ℤ) (p' : Player),
      (dispatchBudget s pid player sorted).attacks = s.attacks ++ waves ∧
      findPlayer (dispatchBudget s pid player sorted) pid = some p' ∧
      p'.militaryPopulation = player.militaryPopulation - spent ∧
      sumPow waves = (spent : ℚ) ∧
      0 ≤ spent ∧
      spent ≤ ⌈(player.militaryPopulation : ℚ) * (5 / 100)⌉ + 5 ∧
      spent ≤ player.militaryPopulation ∧
      0 ≤ p'.militaryPopulation := by
  have hflow : (0 : ℤ) ≤ ⌈(player.militaryPopulation : ℚ) * (5 / 100)⌉ + 5 := by
    have h0 : (0 : ℚ) ≤ (player.militaryPopulation : ℚ) * (5 / 100) := by
      have : (1 : ℚ) ≤ (player.militaryPopulation : ℚ) := by exact_mod_cast hmp
      nlinarith
    have := Int.ceil_nonneg h0
    omega
  simp only [dispatchBudget]
  set adl := min player.militaryPopulation
    (⌈(player.militaryPopulation : ℚ) * (5 / 100)⌉ + 5) with hadl
  have hadl1 : adl ≤ ⌈(player.militaryPopulation : ℚ) * (5 / 100)⌉ + 5 :=
    min_le_right _ _
  have hadl2 : adl ≤ player.militaryPopulation := min_le_left _ _
  have hadl0 : 0 ≤ adl := le_min (by omega) hflow
  set r := dispatchCandLoop pid (max 1 (adl / (sorted.length : ℤ)))
    sorted adl [] with hr
  obtain ⟨i1, i2, i3⟩ := dispatchCandLoop_spec pid
    (max 1 (adl / (sorted.length : ℤ))) (le_max_left _ _) sorted adl [] hadl0
  rw [← hr] at i1 i2 i3
  refine ⟨r.2, adl - r.1,
    { player with militaryPopulation := player.militaryPopulation - (adl - r.1) },
    rfl, ?_, rfl, ?_, ?_, ?_, ?_, ?_⟩
  · exact findPlayer_updatePlayer_self _ pid _ _ (fun _ => rfl) hfind
  · rw [i3]
    simp [sumPow]
  · omega
  · omega
  · omega
  · simp only []
    omega

/-- C5: for a player processed by `processMilitaryDispatch` (present, with
`militaryPopulation ≥ 1`), the dispatch creates waves whose total power
equals exactly the amount deducted from `militaryPopulation`; that amount
is at most `⌈militaryPopulation * 0.05⌉ + 5` and at most
`militaryPopulation`, and the resulting `militaryPopulation` is never
negative. -/
theorem c5_dispatch_conservation (s : GameState) (pid : String)
    (player : Player) (hfind : findPlayer s pid = some player)
    (hmp : 1 ≤ player.militaryPopulation) :
    ∃ (waves : List AttackWave) (spent : ℤ) (p' : Player),
      (dispatchForPlayer s pid).attacks = s.attacks ++ waves ∧
      findPlayer (dispatchForPlayer s pid) pid = some p' ∧
      p'.militaryPopulation = player.militaryPopulation - spent ∧
      sumPow waves = (spent : ℚ) ∧
      0 ≤ spent ∧
      spent ≤ ⌈(player.militaryPopulation : ℚ) * (5 / 100)⌉ + 5 ∧
      spent ≤ player.militaryPopulation ∧
      0 ≤ p'.militaryPopulation := by
  have hflow : (0 : ℤ) ≤ ⌈(player.militaryPopulation : ℚ) * (5 / 100)⌉ + 5 := by
    have h0 : (0 : ℚ) ≤ (player.militaryPopulation : ℚ) * (5 / 100) := by
      have : (1 : ℚ) ≤ (player.militaryPopulation : ℚ) := by exact_mod_cast hmp
      nlinarith
    have := Int.ceil_nonneg h0
    omega
  unfold dispatchForPlayer
  simp only [hfind]
  rw [if_neg (show ¬ player.militaryPopulation < 1 by omega)]
  by_cases hcand : (buildCandidates s player).isEmpty
  · rw [if_pos hcand]
    refine ⟨[], 0, player, by simp, hfind, by ring, by simp [sumPow],
      le_refl 0, by omega, by omega, by omega⟩
  · rw [if_neg hcand]
    exact dispatchBudget_spec s pid player _ hfind hmp

/-- C5 witness state: player A with 40 queued military population on a
3×3 neutral-land map, owning tile (1,1). -/
def c5State : GameState :=
  mkState 3
    (fun x y => if x = 1 ∧ y = 1 then landTile (some "A") 1 else landTile none 1)
    9 [{ mkPlayer "A" false [(1, 1)] with militaryPopulation := 40 }]

/-- Witness for `c5_dispatch_conservation` at `c5State`. -/
theorem c5_dispatch_conservation_witness :
    findPlayer c5State "A"
      = some { mkPlayer "A" false [(1, 1)] with militaryPopulation := 40 } ∧
    (∃ (waves : List AttackWave) (spent : ℤ) (p' : Player),
      (dispatchForPlayer c5State "A").attacks = c5State.attacks ++ waves ∧
      findPlayer (dispatchForPlayer c5State "A") "A" = some p' ∧
      p'.militaryPopulation
        = ({ mkPlayer "A" false [(1, 1)] with
             militaryPopulation := 40 } : Player).militaryPopulation - spent ∧
      sumPow waves = (spent : ℚ) ∧
      0 ≤ spent ∧
      spent ≤ ⌈((({ mkPlayer "A" false [(1, 1)] with
             militaryPopulation := 40 } : Player).militaryPopulation : ℚ))
           * (5 / 100)⌉ + 5 ∧
      spent ≤ ({ mkPlayer "A" false [(1, 1)] with
             militaryPopulation := 40 } : Player).militaryPopulation ∧
      0 ≤ p'.militaryPopulation) :=
  ⟨by decide,
   c5_dispatch_conservation c5State "A"
     { mkPlayer "A" false [(1, 1)] with militaryPopulation := 40 }
     (by decide) (by decide)⟩

/-! ## C7: encirclement capture -/

/-- The building transfer applied by `captureComponent` to a captured
tile's building: new owner, hp halved. -/
def captureBuilding (cap : String) (b : Building) : Building :=
  { b with ownerId := cap, hp := b.maxHp * (1/2) }

theorem captureTileStep_self (cap : String) (nf : Bool) (s : GameState)
    (p : ℤ × ℤ) :
    tileAt (captureTileStep cap nf s p) p.1 p.2
      = { tileAt s p.1 p.2 with
          ownerId := some cap, defense := 10,
          building := (tileAt s p.1 p.2).building.map (captureBuilding cap) } := by
  unfold captureTileStep captureBuilding
  cases howner : (tileAt s p.1 p.2).ownerId <;>
    cases nf <;>
      cases hb : (tileAt s p.1 p.2).building <;>
        simp [tileAt_updatePlayer, tileAt_setTile_self, hb]

theorem captureTileStep_ne (cap : String) (nf : Bool) (s : GameState)
    (p : ℤ × ℤ) (a b : ℤ) (h : ¬(a = p.1 ∧ b = p.2)) :
    tileAt (captureTileStep cap nf s p) a b = tileAt s a b := by
  unfold captureTileStep
  cases howner : (tileAt s p.1 p.2).ownerId <;>
    cases nf <;>
      simp [howner, tileAt_updatePlayer, tileAt_setTile_ne _ _ _ _ _ _ h]

theorem captureFold_not_mem (cap : String) (nf : Bool) :
    ∀ (L : List (ℤ × ℤ)) (s : GameState) (q : ℤ × ℤ), q ∉ L →
      tileAt (L.foldl (captureTileStep cap nf) s) q.1 q.2
        = tileAt s q.1 q.2 := by
  intro L
  induction L with
  | nil => intro s q _; rfl
  | cons p rest ih =>
      intro s q hq
      rw [List.foldl_cons]
      rw [ih _ q (fun hc => hq (List.mem_cons_of_mem p hc))]
      exact captureTileStep_ne cap nf s p q.1 q.2 (fun hc =>
        hq ((Prod.ext hc.1 hc.2 : q = p) ▸ List.mem_cons_self p rest))

/-- `captureBuilding` is idempotent: re-capturing a building does not
change it further (the hp is set from the unchanged `maxHp`). -/
theorem captureBuilding_idem (cap : String) (b : Building) :
    captureBuilding cap (captureBuilding cap b) = captureBuilding cap b := rfl

/-- Every member of the captured component list ends up owned by the
capturer, at defense 10, with its building (if any) transferred and its hp
set to half of `maxHp`. -/
theorem captureFold_mem (cap : String) (nf : Bool) :
    ∀ (L : List (ℤ × ℤ)) (s : GameState) (q : ℤ × ℤ), q ∈ L →
      tileAt (L.foldl (captureTileStep cap nf) s) q.1 q.2
        = { tileAt s q.1 q.2 with
            ownerId := some cap, defense := 10,
            building := (tileAt s q.1 q.2).building.map (captureBuilding cap) } := by
  intro L
  induction L with
  | nil => intro s q hq; exact absurd hq (List.not_mem_nil q)
  | cons p rest ih =>
      intro s q hq
      rw [List.foldl_cons]
      by_cases hqr : q ∈ rest
      · rw [ih _ q hqr]
        by_cases hqp : q = p
        · subst hqp
          rw [captureTileStep_self]
          cases hb : (tileAt s q.1 q.2).building <;> simp [captureBuilding_idem]
        · rw [captureTileStep_ne cap nf s p q.1 q.2 (fun hc =>
            hqp (Prod.ext hc.1 hc.2))]
      · have hqp : q = p := by
          rcases List.mem_cons.mp hq with h | h
          · exact h
          · exact absurd h hqr
        subst hqp
        rw [captureFold_not_mem cap nf rest _ q hqr]
        exact captureTileStep_self cap nf s q

/-- C7: a flood-filled single-owner land component whose collected
boundary contains no WATER, no map EDGE and no NEUTRAL land and consists
of exactly one foreign owner id is entirely transferred by the
encirclement pass to that owner — every component tile's `ownerId` becomes
the capturer's, its defense is reset to 10, and a building on it changes
owner and drops to half of its `maxHp`; a component whose boundary
includes water, edge or neutral land is left unchanged. -/
theorem c7_encirclement_capture :
    (∀ (s : GameState) (visited : List (ℤ × ℤ)) (p : ℤ × ℤ)
       (owner capturer : String) (comp : List (ℤ × ℤ)) (bnd : List String)
       (v' : List (ℤ × ℤ)),
      p ∉ visited →
      (tileAt s p.1 p.2).type = Terrain.LAND →
      (tileAt s p.1 p.2).ownerId = some owner →
      floodFillAt s p.1 p.2 visited owner = some (comp, bnd, v') →
      ¬("WATER" ∈ bnd ∨ "EDGE" ∈ bnd ∨ "NEUTRAL" ∈ bnd) →
      bnd = [capturer] →
      (encircleCell (s, visited) p).1 = captureComponent s comp capturer ∧
      (∀ q ∈ comp,
        tileAt (captureComponent s comp capturer) q.1 q.2
          = { tileAt s q.1 q.2 with
              ownerId := some capturer, defense := 10,
              building := (tileAt s q.1 q.2).building.map
                (captureBuilding capturer) })) ∧
    (∀ (s : GameState) (visited : List (ℤ × ℤ)) (p : ℤ × ℤ)
       (owner : String) (comp : List (ℤ × ℤ)) (bnd : List String)
       (v' : List (ℤ × ℤ)),
      p ∉ visited →
      (tileAt s p.1 p.2).type = Terrain.LAND →
      (tileAt s p.1 p.2).ownerId = some owner →
      floodFillAt s p.1 p.2 visited owner = some (comp, bnd, v') →
      ("WATER" ∈ bnd ∨ "EDGE" ∈ bnd ∨ "NEUTRAL" ∈ bnd) →
      (encircleCell (s, visited) p).1 = s) := by
  constructor
  · intro s visited p owner capturer comp bnd v' hv hty hown hff hdq hcap
    constructor
    · unfold encircleCell
      rw [if_neg hv]
      simp only [hty, hown, hff, hcap]
      rw [if_neg (by subst hcap; exact hdq)]
    · intro q hq
      exact captureFold_mem capturer _ comp s q hq
  · intro s visited p owner comp bnd v' hv hty hown hff hdq
    unfold encircleCell
    rw [if_neg hv]
    simp only [hty, hown, hff]
    rw [if_pos hdq]

/-- C7 witness state: a 5×5 all-land map whose centre 3×3 block is owned
by `"B"` and whose surrounding ring is owned by `"A"`. -/
def c7State : GameState :=
  mkState 5
    (fun x y =>
      if 1 ≤ x ∧ x ≤ 3 ∧ 1 ≤ y ∧ y ≤ 3 then landTile (some "B") 1
      else landTile (some "A") 1)
    25 [mkPlayer "A" false [], mkPlayer "B" false []]

/-- The component the flood fill discovers from `(1,1)` on `c7State`, in
BFS pop order. -/
def c7comp : List (ℤ × ℤ) :=
  [(1, 1), (1, 2), (2, 1), (1, 3), (2, 2), (3, 1), (2, 3), (3, 2), (3, 3)]

theorem c7_encirclement_capture_witness :
    ((1, 1) : ℤ × ℤ) ∉ ([] : List (ℤ × ℤ)) ∧
    (tileAt c7State 1 1).type = Terrain.LAND ∧
    (tileAt c7State 1 1).ownerId = some "B" ∧
    floodFillAt c7State 1 1 [] "B" = some (c7comp, ["A"], c7comp) ∧
    ¬("WATER" ∈ ["A"] ∨ "EDGE" ∈ ["A"] ∨ "NEUTRAL" ∈ ["A"]) ∧
    (encircleCell (c7State, []) (1, 1)).1 = captureComponent c7State c7comp "A" ∧
    (tileAt (captureComponent c7State c7comp "A") 2 2).ownerId = some "A" ∧
    (tileAt (captureComponent c7State c7comp "A") 2 2).defense = 10 := by
  have h := c7_encirclement_capture.1 c7State [] (1, 1) "B" "A" c7comp ["A"]
    c7comp (by decide) (by decide) (by decide) (by decide) (by decide) rfl
  refine ⟨by decide, by decide, by decide, by decide, by decide, h.1, ?_, ?_⟩
  · rw [h.2 (2, 2) (by decide)]
  · rw [h.2 (2, 2) (by decide)]

/-! ## C8: win condition -/

theorem econApplyStep_winnerId (stats : String → EconStats) (total : ℕ)
    (s : GameState) (pid : String) :
    (econApplyStep stats total s pid).winnerId
      = if 0 < total ∧ (4/5 : ℚ) < ((stats pid).landCount : ℚ) / (total : ℚ)
        then some pid else s.winnerId := by
  simp only [econApplyStep]
  split <;> rfl

theorem econApplyStep_isGameActive (stats : String → EconStats) (total : ℕ)
    (s : GameState) (pid : String) :
    (econApplyStep stats total s pid).isGameActive = s.isGameActive := by
  simp only [econApplyStep]
  split <;> rfl

theorem econFold_isGameActive (stats : String → EconStats) (total : ℕ) :
    ∀ (ids : List String) (s : GameState),
      (ids.foldl (econApplyStep stats total) s).isGameActive
        = s.isGameActive := by
  intro ids
  induction ids with
  | nil => intro s; rfl
  | cons i rest ih =>
      intro s
      rw [List.foldl_cons, ih, econApplyStep_isGameActive]

theorem econFold_winnerId_isSome (stats : String → EconStats) (total : ℕ) :
    ∀ (ids : List String) (s : GameState), s.winnerId ≠ none →
      (ids.foldl (econApplyStep stats total) s).winnerId ≠ none := by
  intro ids
  induction ids with
  | nil => intro s h; exact h
  | cons i rest ih =>
      intro s h
      rw [List.foldl_cons]
      refine ih _ ?_
      rw [econApplyStep_winnerId]
      split
      · simp
      · exact h

theorem econFold_winnerId_skip (stats : String → EconStats) (total : ℕ) :
    ∀ (ids : List String) (s : GameState),
      (∀ q ∈ ids,
        ¬(0 < total ∧ (4/5 : ℚ) < ((stats q).landCount : ℚ) / (total : ℚ))) →
      (ids.foldl (econApplyStep stats total) s).winnerId = s.winnerId := by
  intro ids
  induction ids with
  | nil => intro s _; rfl
  | cons i rest ih =>
      intro s h
      rw [List.foldl_cons,
        ih _ (fun q hq => h q (List.mem_cons_of_mem i hq)),
        econApplyStep_winnerId, if_neg (h i (List.mem_cons_self i rest))]

/-- C8: if `totalLandTiles > 0` and a player's counted owned-tile ratio
strictly exceeds 0.8, then after `updateEconomy` a winner is set (so
`isGameOver` is true); and the winner is that player in particular
whenever no player listed after them also exceeds the ratio and the
no-human-alive fallback is disabled (`isGameActive = false`). The
overwriting by later qualifiers and by the fallback is real: see the
counterexample. -/
theorem c8_win_condition (s : GameState) (pre post : List String)
    (pid : String)
    (hids : s.players.map Player.id = pre ++ pid :: post)
    (htot : 0 < s.totalLandTiles)
    (hratio : (4/5 : ℚ) < ((computeStats s pid).landCount : ℚ)
      / (s.totalLandTiles : ℚ)) :
    (updateEconomy s).winnerId ≠ none ∧
    isGameOver (updateEconomy s) = true ∧
    (s.isGameActive = false →
     (∀ q ∈ post, ¬((4/5 : ℚ) < ((computeStats s q).landCount : ℚ)
        / (s.totalLandTiles : ℚ))) →
     (updateEconomy s).winnerId = some pid) := by
  have hpidStep : ∀ s' : GameState,
      (econApplyStep (fun q => computeStats s q) s.totalLandTiles s' pid).winnerId
        = some pid := by
    intro s'
    rw [econApplyStep_winnerId, if_pos ⟨htot, hratio⟩]
  have hne : (updateEconomy s).winnerId ≠ none := by
    simp only [updateEconomy, hids, List.foldl_append, List.foldl_cons]
    split
    · split
      · split <;> simp
      · refine econFold_winnerId_isSome _ _ post _ ?_
        rw [hpidStep]
        simp
    · refine econFold_winnerId_isSome _ _ post _ ?_
      rw [hpidStep]
      simp
  refine ⟨hne, ?_, ?_⟩
  · simp only [isGameOver, bne_iff_ne, ne_eq]
    exact hne
  · intro hga hpost
    have hact : ((post.foldl
        (econApplyStep (fun q => computeStats s q) s.totalLandTiles)
        (econApplyStep (fun q => computeStats s q) s.totalLandTiles
          (pre.foldl (econApplyStep (fun q => computeStats s q)
            s.totalLandTiles) s) pid)).isGameActive) = false := by
      rw [econFold_isGameActive, econApplyStep_isGameActive,
        econFold_isGameActive, hga]
    simp only [updateEconomy, hids, List.foldl_append, List.foldl_cons, hact,
      Bool.false_eq_true, if_false]
    rw [econFold_winnerId_skip _ _ post _ (fun q hq hc => hpost q hq hc.2),
      hpidStep]

/-- C8 counterexample state: a 3×3 map with 2 land tiles owned by `"A"`
(100% of the land) and 7 water tiles whose `ownerId` is `"B"` — owned
water the overflow mechanic can produce. `"B"`'s counted total is 7, so
`7/2 > 0.8` also holds for the later-listed `"B"`, which overwrites the
winner. -/
def c8State : GameState :=
  mkState 3
    (fun x y =>
      if (x = 0 ∨ x = 1) ∧ y = 0 then landTile (some "A") 1
      else { waterTile with ownerId := some "B" })
    2
    [mkPlayer "A" false [(0, 0), (1, 0)],
     mkPlayer "B" false [(2, 0), (0, 1), (1, 1), (2, 1), (0, 2), (1, 2), (2, 2)]]

/-- The original C8 claim is false on `c8State`: `"A"` satisfies its
hypotheses (2 of 2 land tiles, ratio 1 > 0.8) yet the winner written on
this tick is `"B"`, because the per-player win check runs inside the apply
loop and any later player whose counted total (which includes owned water
tiles) also beats the ratio overwrites `winnerId`. -/
theorem c8_counterexample :
    0 < c8State.totalLandTiles ∧
    (4/5 : ℚ) < ((computeStats c8State "A").landCount : ℚ)
      / (c8State.totalLandTiles : ℚ) ∧
    (updateEconomy c8State).winnerId = some "B" ∧
    (updateEconomy c8State).winnerId ≠ some "A" := by
  have hA : (computeStats c8State "A").landCount = 2 := by decide
  have hB : (computeStats c8State "B").landCount = 7 := by decide
  have htot : c8State.totalLandTiles = 2 := rfl
  have hids : c8State.players.map Player.id = ["A", "B"] := by decide
  have hw : (updateEconomy c8State).winnerId = some "B" := by
    simp only [updateEconomy, hids, List.foldl_cons, List.foldl_nil]
    rw [econApplyStep_isGameActive, econApplyStep_isGameActive,
      show c8State.isGameActive = false from rfl]
    simp only [Bool.false_eq_true, if_false]
    rw [econApplyStep_winnerId, if_pos]
    refine ⟨by decide, ?_⟩
    rw [show (computeStats c8State "B").landCount = 7 from hB, htot]
    norm_num
  refine ⟨by decide, ?_, hw, ?_⟩
  · rw [hA, htot]
    norm_num
  · rw [hw]
    simp

/-- C8 witness state: a 3×3 map, 2 land tiles both owned by `"A"`, all
other tiles unowned water; `"B"` owns nothing. -/
def c8wState : GameState :=
  mkState 3
    (fun x y =>
      if (x = 0 ∨ x = 1) ∧ y = 0 then landTile (some "A") 1 else waterTile)
    2 [mkPlayer "A" false [(0, 0), (1, 0)], mkPlayer "B" false []]

theorem c8_win_condition_witness :
    c8wState.players.map Player.id = [] ++ "A" :: ["B"] ∧
    0 < c8wState.totalLandTiles ∧
    (4/5 : ℚ) < ((computeStats c8wState "A").landCount : ℚ)
      / (c8wState.totalLandTiles : ℚ) ∧
    (updateEconomy c8wState).winnerId ≠ none ∧
    isGameOver (updateEconomy c8wState) = true ∧
    (updateEconomy c8wState).winnerId = some "A" := by
  have hratio : (4/5 : ℚ) < ((computeStats c8wState "A").landCount : ℚ)
      / (c8wState.totalLandTiles : ℚ) := by
    rw [show (computeStats c8wState "A").landCount = 2 from by decide,
      show c8wState.totalLandTiles = 2 from rfl]
    norm_num
  have h := c8_win_condition c8wState [] ["B"] "A" (by decide) (by decide) hratio
  refine ⟨by decide, by decide, hratio, h.1, h.2.1, h.2.2 rfl ?_⟩
  intro q hq
  rw [show q = "B" from by simpa using hq]
  rw [show (computeStats c8wState "B").landCount = 0 from by decide,
    show c8wState.totalLandTiles = 2 from rfl]
  norm_num

end CastleFront
